import Mathlib

/-!
Verification development for the crosslightning-plugins repository
(hedging/rebalancing plugin plus Binance and OKX exchange adapters).

Decimal strings are modelled as lists of base-10 digits (most significant
first) together with an optional fractional digit list: the TypeScript
string "12.05" corresponds to the value with whole part [1, 2] and
fractional part some [0, 5]; a string with no decimal point has
fractional part none.  Big-integer (BN) amounts are modelled as Nat,
which is faithful because every amount handled by the code is
non-negative and arbitrary precision.
-/

/-- Value of a big-endian list of base-10 digits, mirroring what
new BN(str, 10) computes on the corresponding digit string. -/
def natOfDigits (l : List Nat) : Nat :=
  l.foldl (fun acc d => acc * 10 + d) 0

/-- Value of a big-endian digit list when parsed in base 16, mirroring
what new BN(str, 16) computes on a string of decimal digits. -/
def hexOfDigits (l : List Nat) : Nat :=
  l.foldl (fun acc d => acc * 16 + d) 0

/-- Fuel-driven helper computing the base-10 digits of n, most
significant first. -/
def digitsOfAux : Nat → Nat → List Nat
  | 0, _ => []
  | fuel + 1, n => if n = 0 then [] else digitsOfAux fuel (n / 10) ++ [n % 10]

/-- Base-10 digits of n, most significant first, mirroring
BN.prototype.toString(10) (which prints "0" for zero). -/
def digitsOf (n : Nat) : List Nat :=
  if n = 0 then [0] else digitsOfAux n n

/-- Model of a decimal amount string: whole-part digits plus an optional
fractional-part digit list (some corresponds to a string containing "."). -/
structure DecStr where
  whole : List Nat
  frac : Option (List Nat)
deriving DecidableEq, Repr

/-- Translation of toDecimal from part_000 (identical in the Binance and
OKX modules): for decimalCount ≤ 0 append -decimalCount zeros and no
decimal point; otherwise left-pad the digit string to decimalCount+1
digits and split it decimalCount digits from the right. -/
def toDecimal (amount : Nat) (decimalCount : Int) : DecStr :=
  if decimalCount ≤ 0 then
    ⟨digitsOf amount ++ List.replicate (-decimalCount).toNat 0, none⟩
  else
    let d := decimalCount.toNat
    let ds := digitsOf amount
    let padded := List.replicate (d + 1 - ds.length) 0 ++ ds
    ⟨padded.take (padded.length - d), some (padded.drop (padded.length - d))⟩

/-- Translation of fromDecimal from part_000: split at the decimal point,
truncate excess fractional digits or right-pad missing ones with zeros,
drop the whole part when it is exactly "0", and for negative
decimalCount trim whole-unit digits from the right. -/
def fromDecimal (s : DecStr) (decimalCount : Int) : Nat :=
  match s.frac with
  | some after =>
    if decimalCount < 0 then
      natOfDigits (s.whole.take (s.whole.length - (-decimalCount).toNat))
    else if decimalCount.toNat < after.length then
      natOfDigits ((if s.whole = [0] then [] else s.whole) ++ after.take decimalCount.toNat)
    else
      natOfDigits ((if s.whole = [0] then [] else s.whole) ++
        after ++ List.replicate (decimalCount.toNat - after.length) 0)
  | none =>
    if decimalCount < 0 then
      natOfDigits (s.whole.take (s.whole.length - (-decimalCount).toNat))
    else
      natOfDigits (s.whole ++ List.replicate decimalCount.toNat 0)

/-- A decimal string in canonical form: all digits are base-10 digits,
the whole part is non-empty, and the whole part is either exactly "0" or
carries no leading zero. -/
def canonicalDec (s : DecStr) : Prop :=
  (∀ a ∈ s.whole, a < 10) ∧ (∀ a ∈ s.frac.getD [], a < 10) ∧
    s.whole ≠ [] ∧ (s.whole = [0] ∨ s.whole.head? ≠ some 0)

/-- The normalization of a decimal string used by the round-trip claim:
the whole part is kept and the fractional part is right-padded with
zeros to exactly d digits. -/
def normalizeDec (s : DecStr) (d : Int) : DecStr :=
  ⟨s.whole, some ((s.frac.getD []) ++
    List.replicate (d.toNat - (s.frac.getD []).length) 0)⟩

namespace Binance

/-- The currencyDecimals table of the Binance adapter module. -/
def currencyDecimals : List (String × Int) :=
  [("BTC", 8), ("BTC-LN", 8), ("USDC", 6), ("USDT", 6), ("ETH", 18), ("SOL", 9)]

end Binance

namespace OKX

/-- The currencyDecimals table of the OKX adapter module (EVM tokens use
18 decimals on this venue). -/
def currencyDecimals : List (String × Int) :=
  [("BTC", 8), ("BTC-LN", 8), ("USDC", 18), ("USDT", 18), ("ETH", 18), ("SOL", 9)]

end OKX

/-- Result record of getTradingPair: both fields stay undefined (none)
when neither switch matches. -/
structure TradingPairRes where
  tradingPair : Option String
  buy : Option Bool
deriving DecidableEq, Repr

/-- The supported currency identifiers of the system. -/
def supportedCurrencies : List String :=
  ["BTC", "BTC-LN", "USDC", "USDT", "ETH", "SOL"]

/-- Whether a currency denotes bitcoin (over either rail), mirroring the
guard srcCurrency === "BTC" || srcCurrency === "BTC-LN". -/
def isBtcLike (c : String) : Bool :=
  c = "BTC" || c = "BTC-LN"

namespace Binance

/-- Translation of Binance.getTradingPair: two sequential if blocks, each
switching on the non-bitcoin side; unmatched cases leave the result
variables undefined. -/
def getTradingPair (srcCurrency dstCurrency : String) : TradingPairRes :=
  let r : TradingPairRes := ⟨none, none⟩
  let r := if srcCurrency = "BTC" || srcCurrency = "BTC-LN" then
      match dstCurrency with
      | "USDC" => TradingPairRes.mk (some "BTCUSDC") (some false)
      | "USDT" => TradingPairRes.mk (some "BTCUSDT") (some false)
      | "ETH" => TradingPairRes.mk (some "ETHBTC") (some true)
      | "SOL" => TradingPairRes.mk (some "SOLBTC") (some true)
      | _ => r
    else r
  if dstCurrency = "BTC" || dstCurrency = "BTC-LN" then
    match srcCurrency with
    | "USDC" => TradingPairRes.mk (some "BTCUSDC") (some true)
    | "USDT" => TradingPairRes.mk (some "BTCUSDT") (some true)
    | "ETH" => TradingPairRes.mk (some "ETHBTC") (some false)
    | "SOL" => TradingPairRes.mk (some "SOLBTC") (some false)
    | _ => r
  else r

end Binance

namespace OKX

/-- Translation of OKX.getTradingPair; identical structure to the
Binance version with dash-separated instrument names. -/
def getTradingPair (srcCurrency dstCurrency : String) : TradingPairRes :=
  let r : TradingPairRes := ⟨none, none⟩
  let r := if srcCurrency = "BTC" || srcCurrency = "BTC-LN" then
      match dstCurrency with
      | "USDC" => TradingPairRes.mk (some "BTC-USDC") (some false)
      | "USDT" => TradingPairRes.mk (some "BTC-USDT") (some false)
      | "ETH" => TradingPairRes.mk (some "ETH-BTC") (some true)
      | "SOL" => TradingPairRes.mk (some "SOL-BTC") (some true)
      | _ => r
    else r
  if dstCurrency = "BTC" || dstCurrency = "BTC-LN" then
    match srcCurrency with
    | "USDC" => TradingPairRes.mk (some "BTC-USDC") (some true)
    | "USDT" => TradingPairRes.mk (some "BTC-USDT") (some true)
    | "ETH" => TradingPairRes.mk (some "ETH-BTC") (some false)
    | "SOL" => TradingPairRes.mk (some "SOL-BTC") (some false)
    | _ => r
  else r

/-- One entry of the OKX /api/v5/asset/currencies response consumed by
getWithdrawalFee. -/
structure OKXCurrencyData where
  chain : String
  minFee : DecStr
  maxFee : DecStr
  canWd : Bool

/-- The venue-side responses an OKX call could observe; adapter
functions receive it as an explicit argument so that independence from
the venue is expressible. -/
structure OKXApi where
  currencies : List OKXCurrencyData

/-- Translation of OKX.getWithdrawalFee: the BTC-LN fee is computed
locally as 1000 + amount/1000 sats (BN division truncates); any other
currency consults the venue currency list.  An unknown currency in the
decimals table is modelled as an error (the claims only exercise table
currencies). -/
def getWithdrawalFee (api : OKXApi) (currency chain : String) (amount : Nat) :
    Except String Nat :=
  if currency = "BTC-LN" then
    Except.ok (1000 + amount / 1000)
  else
    match api.currencies.find? (fun e =>
        e.chain = currency ++ "-" ++ (if currency = "BTC" then "Bitcoin" else chain)) with
    | none => Except.error "Chain in currency not found"
    | some currencyData =>
      if !currencyData.canWd then
        Except.error "Cannot withdraw the desired currency"
      else
        match OKX.currencyDecimals.lookup currency with
        | some dec => Except.ok (fromDecimal currencyData.maxFee dec)
        | none => Except.error "Currency not found"

/-- The request an OKX withdrawal submits: Lightning withdrawals post
only the invoice; on-chain withdrawals carry amount and fee as separate
decimal fields. -/
inductive OKXWithdrawReq where
  | lightning (ccy : String) (invoice : String)
  | onchain (ccy : String) (amt : DecStr) (toAddr : String) (chain : String)
      (clientId : String) (fee : DecStr)
deriving DecidableEq, Repr

/-- Translation of OKX.withdraw: BTC-LN posts the invoice (passed as the
address) to the lightning endpoint; other currencies require an amount
and post amt and fee as separate decimal-string fields. -/
def withdraw (currency chain address withdrawalId : String) (fee : Nat)
    (amount : Option Nat) : Except String OKXWithdrawReq :=
  if currency = "BTC-LN" then
    Except.ok (OKXWithdrawReq.lightning "BTC" address)
  else
    match amount with
    | none => Except.error "Withdrawals must have an amount!"
    | some a =>
      match OKX.currencyDecimals.lookup currency with
      | some dec =>
        Except.ok (OKXWithdrawReq.onchain currency (toDecimal a dec) address
          (currency ++ "-" ++ (if currency = "BTC" then "Bitcoin" else chain))
          withdrawalId (toDecimal fee dec))
      | none => Except.error "Currency not found"

end OKX

namespace Binance

/-- The request Binance.withdraw submits to client.withdraw. -/
structure BinanceWithdrawReq where
  coin : String
  withdrawOrderId : String
  network : String
  address : String
  amount : DecStr
deriving DecidableEq, Repr

/-- Translation of Binance.withdraw.  decodeSats models
bolt11.decode(address).satoshis.  BTC forces the BTC network; BTC-LN
switches to coin BTC on the LIGHTNING network and replaces the amount
argument with the invoice amount; the submitted amount field is always
amount + withdrawalFee rendered as a decimal string. -/
def withdraw (decodeSats : String → Nat)
    (currency chain address withdrawalId : String) (withdrawalFee : Nat)
    (amount : Option Nat) : Except String BinanceWithdrawReq :=
  let chain1 := if currency = "BTC" then "BTC" else chain
  if currency = "BTC-LN" then
    match Binance.currencyDecimals.lookup "BTC" with
    | some dec =>
      Except.ok ⟨"BTC", withdrawalId, "LIGHTNING", address,
        toDecimal (decodeSats address + withdrawalFee) dec⟩
    | none => Except.error "Currency not found"
  else
    match amount with
    | none => Except.error "Withdrawals must have an amount!"
    | some a =>
      match Binance.currencyDecimals.lookup currency with
      | some dec =>
        Except.ok ⟨currency, withdrawalId, chain1, address,
          toDecimal (a + withdrawalFee) dec⟩
      | none => Except.error "Currency not found"

end Binance

/-- The RebalancingState enum of HedgingPlugin.ts. -/
inductive RebState where
  | RETRYING
  | IDLE
  | TRIGGERED
  | SC_WITHDRAWING
  | SC_WITHDRAWAL_CONFIRMED
  | OUT_TX
  | OUT_TX_CONFIRMED
  | DEPOSIT_RECEIVED
  | TRADE_EXECUTING
  | TRADE_EXECUTED
  | FUNDS_TRANSFERING
  | FUNDS_TRANSFERED
  | WITHDRAWING
  | WITHDRAWAL_SENT
  | IN_TX_CONFIRMED
  | SC_DEPOSITING
  | SC_DEPOSITED
  | FINISHED
deriving DecidableEq, Repr

/-- The numeric value each RebalancingState constructor carries in the
source enum. -/
def stateIndex : RebState → Int
  | .RETRYING => -1
  | .IDLE => 0
  | .TRIGGERED => 1
  | .SC_WITHDRAWING => 2
  | .SC_WITHDRAWAL_CONFIRMED => 3
  | .OUT_TX => 4
  | .OUT_TX_CONFIRMED => 5
  | .DEPOSIT_RECEIVED => 6
  | .TRADE_EXECUTING => 7
  | .TRADE_EXECUTED => 8
  | .FUNDS_TRANSFERING => 9
  | .FUNDS_TRANSFERED => 10
  | .WITHDRAWING => 11
  | .WITHDRAWAL_SENT => 12
  | .IN_TX_CONFIRMED => 13
  | .SC_DEPOSITING => 14
  | .SC_DEPOSITED => 15
  | .FINISHED => 16

/-- The HedgingPluginState document.  Optional fields are nullable in
the source; candidate transaction maps are association lists from txId
to rawTx in JavaScript-object insertion order. -/
structure Doc where
  state : Option RebState
  cooldown : Option Nat
  retryAt : Option Nat
  retryState : Option RebState
  srcToken : Option String
  srcTokenAddress : Option String
  dstToken : Option String
  dstTokenAddress : Option String
  amountOut : Option Nat
  scWithdrawTxs : Option (List (String × String))
  scWithdrawTxId : Option String
  outTxs : Option (List (String × String))
  outTxId : Option String
  depositId : Option String
  clientOrderId : Option String
  orderId : Option String
  price : Option String
  amountIn : Option Nat
  clientTransferId : Option String
  transferId : Option String
  receivingAddress : Option String
  withdrawalFee : Option Nat
  withdrawalId : Option String
  inTxId : Option String
  scDepositTxs : Option (List (String × String))
  scDepositTxId : Option String
deriving DecidableEq, Repr

/-- A document with every field absent. -/
def emptyDoc : Doc :=
  ⟨none, none, none, none, none, none, none, none, none, none, none, none, none,
   none, none, none, none, none, none, none, none, none, none, none, none, none⟩

/-- The field identifiers that occur in REQUIRED_FIELDS. -/
inductive FieldName where
  | retryAt | retryState
  | srcToken | srcTokenAddress | dstToken | dstTokenAddress | amountOut
  | scWithdrawTxs | scWithdrawTxId
  | outTxs | outTxId
  | depositId
  | clientOrderId
  | orderId | price | amountIn
  | clientTransferId | transferId
  | receivingAddress | withdrawalFee | withdrawalId
  | inTxId
  | scDepositTxs | scDepositTxId
deriving DecidableEq, Repr

/-- The REQUIRED_FIELDS table of HedgingPlugin.ts. -/
def REQUIRED_FIELDS : RebState → List FieldName
  | .RETRYING => [.retryAt, .retryState]
  | .IDLE => []
  | .TRIGGERED => [.srcToken, .srcTokenAddress, .dstToken, .dstTokenAddress, .amountOut]
  | .SC_WITHDRAWING => [.scWithdrawTxs]
  | .SC_WITHDRAWAL_CONFIRMED => [.scWithdrawTxId]
  | .OUT_TX => [.outTxs]
  | .OUT_TX_CONFIRMED => [.outTxId]
  | .DEPOSIT_RECEIVED => [.depositId]
  | .TRADE_EXECUTING => [.clientOrderId]
  | .TRADE_EXECUTED => [.orderId, .price, .amountIn]
  | .FUNDS_TRANSFERING => [.clientTransferId]
  | .FUNDS_TRANSFERED => [.transferId]
  | .WITHDRAWING => [.receivingAddress, .withdrawalFee, .withdrawalId]
  | .WITHDRAWAL_SENT => [.inTxId]
  | .IN_TX_CONFIRMED => []
  | .SC_DEPOSITING => [.scDepositTxs]
  | .SC_DEPOSITED => [.scDepositTxId]
  | .FINISHED => []

/-- Whether the named field of the document is non-null, mirroring the
this.state[requiredField] == null check. -/
def fieldPresent (d : Doc) : FieldName → Bool
  | .retryAt => d.retryAt.isSome
  | .retryState => d.retryState.isSome
  | .srcToken => d.srcToken.isSome
  | .srcTokenAddress => d.srcTokenAddress.isSome
  | .dstToken => d.dstToken.isSome
  | .dstTokenAddress => d.dstTokenAddress.isSome
  | .amountOut => d.amountOut.isSome
  | .scWithdrawTxs => d.scWithdrawTxs.isSome
  | .scWithdrawTxId => d.scWithdrawTxId.isSome
  | .outTxs => d.outTxs.isSome
  | .outTxId => d.outTxId.isSome
  | .depositId => d.depositId.isSome
  | .clientOrderId => d.clientOrderId.isSome
  | .orderId => d.orderId.isSome
  | .price => d.price.isSome
  | .amountIn => d.amountIn.isSome
  | .clientTransferId => d.clientTransferId.isSome
  | .transferId => d.transferId.isSome
  | .receivingAddress => d.receivingAddress.isSome
  | .withdrawalFee => d.withdrawalFee.isSome
  | .withdrawalId => d.withdrawalId.isSome
  | .inTxId => d.inTxId.isSome
  | .scDepositTxs => d.scDepositTxs.isSome
  | .scDepositTxId => d.scDepositTxId.isSome

/-- Translation of HedgingPlugin.setState up to and including the state
mutation: the loop throws on the first missing required field of the
target state before touching the document; otherwise the state field is
set (saveState is modelled separately by diskAfterSetState). -/
def setState (d : Doc) (newState : RebState) : Except String Doc :=
  match (REQUIRED_FIELDS newState).find? (fun f => !fieldPresent d f) with
  | some _ => Except.error "Invalid state transition, missing field"
  | none => Except.ok { d with state := some newState }

/-- The on-disk JSON shape of the document: identical to Doc except that
the replacer of serializeState has turned the three big-integer fields
amountOut, amountIn and withdrawalFee into decimal digit strings. -/
structure SerDoc where
  state : Option RebState
  cooldown : Option Nat
  retryAt : Option Nat
  retryState : Option RebState
  srcToken : Option String
  srcTokenAddress : Option String
  dstToken : Option String
  dstTokenAddress : Option String
  amountOut : Option (List Nat)
  scWithdrawTxs : Option (List (String × String))
  scWithdrawTxId : Option String
  outTxs : Option (List (String × String))
  outTxId : Option String
  depositId : Option String
  clientOrderId : Option String
  orderId : Option String
  price : Option String
  amountIn : Option (List Nat)
  clientTransferId : Option String
  transferId : Option String
  receivingAddress : Option String
  withdrawalFee : Option (List Nat)
  withdrawalId : Option String
  inTxId : Option String
  scDepositTxs : Option (List (String × String))
  scDepositTxId : Option String
deriving DecidableEq, Repr

/-- Translation of HedgingPlugin.serializeState: JSON.stringify with a
replacer that renders amountOut, amountIn and withdrawalFee via
BN.toString(10), i.e. as decimal digit strings. -/
def serializeState (d : Doc) : SerDoc :=
  ⟨d.state, d.cooldown, d.retryAt, d.retryState, d.srcToken, d.srcTokenAddress,
   d.dstToken, d.dstTokenAddress, d.amountOut.map digitsOf, d.scWithdrawTxs,
   d.scWithdrawTxId, d.outTxs, d.outTxId, d.depositId, d.clientOrderId,
   d.orderId, d.price, d.amountIn.map digitsOf, d.clientTransferId,
   d.transferId, d.receivingAddress, d.withdrawalFee.map digitsOf,
   d.withdrawalId, d.inTxId, d.scDepositTxs, d.scDepositTxId⟩

/-- Translation of HedgingPlugin.loadState: JSON.parse with a reviver
that rebuilds amountOut, amountIn and withdrawalFee via
new BN(value, 16), i.e. parses the stored digit string in base 16. -/
def loadState (s : SerDoc) : Doc :=
  ⟨s.state, s.cooldown, s.retryAt, s.retryState, s.srcToken, s.srcTokenAddress,
   s.dstToken, s.dstTokenAddress, s.amountOut.map hexOfDigits, s.scWithdrawTxs,
   s.scWithdrawTxId, s.outTxs, s.outTxId, s.depositId, s.clientOrderId,
   s.orderId, s.price, s.amountIn.map hexOfDigits, s.clientTransferId,
   s.transferId, s.receivingAddress, s.withdrawalFee.map hexOfDigits,
   s.withdrawalId, s.inTxId, s.scDepositTxs, s.scDepositTxId⟩

/-- The on-disk document after a setState call: saveState runs only
after a successful required-field check and writes the mutated document;
a throw leaves the previous disk content in place. -/
def diskAfterSetState (d : Doc) (disk : Option SerDoc) (newState : RebState) :
    Option SerDoc :=
  match setState d newState with
  | Except.ok d2 => some (serializeState d2)
  | Except.error _ => disk

/-- The in-memory document after a setState call: a throw happens before
the state field is mutated, so the document is unchanged. -/
def docAfterSetState (d : Doc) (newState : RebState) : Doc :=
  match setState d newState with
  | Except.ok d2 => d2
  | Except.error _ => d

/-- JavaScript object-property read map[k] on an association list. -/
def lookupJS : List (String × String) → String → Option String
  | [], _ => none
  | p :: t, k => if p.1 = k then some p.2 else lookupJS t k

/-- JavaScript object-property assignment map[k] = v on an association
list: an existing key keeps its position and gets the new value, a fresh
key is appended. -/
def insertJS (m : List (String × String)) (k v : String) :
    List (String × String) :=
  if (lookupJS m k).isSome then
    m.map (fun p => if p.1 = k then (k, v) else p)
  else
    m ++ [(k, v)]

/-- Translation of the onBeforeTxReplace callback registered in
onEnable: depending on the current state it inserts the replacement into
scWithdrawTxs, outTxs or scDepositTxs when the old txId is a known
candidate, sets cooldown to now + 5 s and saves; the returned flag
records whether saveState ran.  The three ifs of the source are
sequential, but at most one can match because they test the same state
field; a null candidate map (JS TypeError on property access) leaves the
document unmodified. -/
def onBeforeTxReplace (d : Doc) (now : Nat)
    (_oldTx oldTxId newTx newTxId : String) : Doc × Bool :=
  if d.state = some RebState.SC_WITHDRAWING then
    match d.scWithdrawTxs with
    | some m =>
      if (lookupJS m oldTxId).isSome then
        ({ d with
            scWithdrawTxs := some (insertJS m newTxId newTx),
            cooldown := some (now + 5000) }, true)
      else (d, false)
    | none => (d, false)
  else if d.state = some RebState.OUT_TX then
    match d.outTxs with
    | some m =>
      if (lookupJS m oldTxId).isSome then
        ({ d with
            outTxs := some (insertJS m newTxId newTx),
            cooldown := some (now + 5000) }, true)
      else (d, false)
    | none => (d, false)
  else if d.state = some RebState.SC_DEPOSITING then
    match d.scDepositTxs with
    | some m =>
      if (lookupJS m oldTxId).isSome then
        ({ d with
            scDepositTxs := some (insertJS m newTxId newTx),
            cooldown := some (now + 5000) }, true)
      else (d, false)
    | none => (d, false)
  else (d, false)

/-- The rebalance job the balance monitor seeds (the srcToken, dstToken
and amountOut fields it fills before setState(TRIGGERED)). -/
structure RebalanceSeed where
  srcToken : String
  dstToken : String
  amountOut : Nat
deriving DecidableEq, Repr

/-- Translation of the balance-monitor interval body of onEnable, from
the job-slot guard onward, with the adapter reads supplied as arguments:
balanceUSDCinBTC is the BTC value of the (locked + returning adjusted)
USDC balance, balanceOnchain the on-chain BTC balance, fromBtcAmount the
swapPricing.getFromBtcSwapAmount conversion.  BN divisions truncate;
a zero sum would throw in BN (division by zero) and seeds nothing, which
coincides with Nat division yielding a zero diff here. -/
def monitorTick (job : Option Doc)
    (balanceUSDCinBTC balanceOnchain usableBalanceUSDC : Nat)
    (fromBtcAmount : Nat → Nat)
    (rebalanceThresholdPPM rebalanceAmountPPM : Nat) : Option RebalanceSeed :=
  let busy : Bool := match job with
    | some d => match d.state with
      | some s => s != RebState.IDLE
      | none => false
    | none => false
  if busy then none
  else
    let sumOnChainAndUSDC := balanceUSDCinBTC + balanceOnchain
    let ppmUSDC : Int := ((balanceUSDCinBTC * 1000000) / sumOnChainAndUSDC : Nat)
    let ppmBTC : Int := ((balanceOnchain * 1000000) / sumOnChainAndUSDC : Nat)
    let diffPPM : Int := ppmUSDC - ppmBTC
    if rebalanceThresholdPPM < diffPPM.natAbs then
      let btcValueToSwap :=
        sumOnChainAndUSDC * diffPPM.natAbs * rebalanceAmountPPM / 1000000 / 1000000
      if diffPPM < 0 then
        some ⟨"BTC", "USDC", btcValueToSwap⟩
      else
        let usdcAmount := fromBtcAmount btcValueToSwap
        if usableBalanceUSDC < usdcAmount then none
        else some ⟨"USDC", "BTC", usdcAmount⟩
    else none

/-- The states that ever appear as retryState when the engine enters
RETRYING. -/
def retryTargets : List RebState :=
  [.SC_WITHDRAWAL_CONFIRMED, .DEPOSIT_RECEIVED, .TRADE_EXECUTED,
   .FUNDS_TRANSFERED, .WITHDRAWING, .IN_TX_CONFIRMED]

/-- One persisted transition of the rebalance engine: every setState
call site of HedgingPlugin.check (including the ones inside the
sendAndConfirm onTxBroadcast callbacks and the error paths that run
after a transition) gives one constructor, with the environment
responses (deposit addresses, txids, adapter results, clock readings)
existentially packaged as constructor arguments.  The relation
over-approximates the reachable behaviour: a constructor applies
whenever its state and token guards hold, regardless of which adapter
response would produce it. -/
inductive EngineStep : Doc → Doc → Prop where
  /-- RETRYING handler: retryAt elapsed, re-enter retryState. -/
  | retryExit (d : Doc) (r : RebState) :
      d.state = some .RETRYING → d.retryState = some r →
      EngineStep d { d with state := some r }
  /-- TRIGGERED, src BTC-LN: record the invoice under its payment hash
  and move to OUT_TX (the lncli.pay call happens afterwards). -/
  | triggeredLnOut (d : Doc) (paymentHash invoice : String) (now : Nat) :
      d.state = some .TRIGGERED → d.srcToken = some "BTC-LN" →
      EngineStep d { d with
        state := some .OUT_TX,
        outTxs := some [(paymentHash, invoice)],
        cooldown := some (now + 5000) }
  /-- TRIGGERED, src BTC: record the signed funding tx under its txid and
  move to OUT_TX (the broadcast happens afterwards). -/
  | triggeredBtcOut (d : Doc) (txId raw : String) (now : Nat) :
      d.state = some .TRIGGERED → d.srcToken = some "BTC" →
      EngineStep d { d with
        state := some .OUT_TX,
        outTxs := some [(txId, raw)],
        cooldown := some (now + 5000) }
  /-- TRIGGERED, src BTC: fundPsbt or signPsbt failed, dead-end to IDLE. -/
  | triggeredBtcFail (d : Doc) :
      d.state = some .TRIGGERED → d.srcToken = some "BTC" →
      EngineStep d { d with state := some .IDLE }
  /-- TRIGGERED, smart-chain src: first onTxBroadcast candidate of the
  contract withdrawal moves to SC_WITHDRAWING. -/
  | triggeredScWithdraw (d : Doc) (txId raw : String) (now : Nat) :
      d.state = some .TRIGGERED →
      d.srcToken ≠ some "BTC" → d.srcToken ≠ some "BTC-LN" →
      EngineStep d { d with
        state := some .SC_WITHDRAWING,
        scWithdrawTxs := some [(txId, raw)],
        cooldown := some (now + 5000) }
  /-- SC_WITHDRAWING: a later onTxBroadcast candidate re-enters the same
  state with the candidate recorded. -/
  | scWithdrawAdd (d : Doc) (m : List (String × String)) (txId raw : String) (now : Nat) :
      d.state = some .SC_WITHDRAWING → d.scWithdrawTxs = some m →
      EngineStep d { d with
        state := some .SC_WITHDRAWING,
        scWithdrawTxs := some (insertJS m txId raw),
        cooldown := some (now + 5000) }
  /-- SC_WITHDRAWING: a candidate reports success. -/
  | scWithdrawSuccess (d : Doc) (m : List (String × String)) (txId : String) :
      d.state = some .SC_WITHDRAWING → d.scWithdrawTxs = some m →
      (lookupJS m txId).isSome →
      EngineStep d { d with
        state := some .SC_WITHDRAWAL_CONFIRMED,
        scWithdrawTxId := some txId }
  /-- SC_WITHDRAWING: every candidate not_found or reverted and none
  pending: clear the candidates and dead-end to IDLE. -/
  | scWithdrawAllFail (d : Doc) :
      d.state = some .SC_WITHDRAWING →
      EngineStep d { d with state := some .IDLE, scWithdrawTxs := some [] }
  /-- SC_WITHDRAWAL_CONFIRMED: first onTxBroadcast candidate of the
  transfer to the deposit address moves to OUT_TX. -/
  | scwcOut (d : Doc) (txId raw : String) (now : Nat) :
      d.state = some .SC_WITHDRAWAL_CONFIRMED →
      EngineStep d { d with
        state := some .OUT_TX,
        outTxs := some [(txId, raw)],
        cooldown := some (now + 5000) }
  /-- OUT_TX: a later onTxBroadcast candidate re-enters OUT_TX. -/
  | outTxAdd (d : Doc) (m : List (String × String)) (txId raw : String) (now : Nat) :
      d.state = some .OUT_TX → d.outTxs = some m →
      EngineStep d { d with
        state := some .OUT_TX,
        outTxs := some (insertJS m txId raw),
        cooldown := some (now + 5000) }
  /-- OUT_TX, src BTC: the first recorded txid has a confirmation. -/
  | outTxBtcConfirmed (d : Doc) (m : List (String × String)) (k v : String) :
      d.state = some .OUT_TX → d.srcToken = some "BTC" → d.outTxs = some m →
      m.head? = some (k, v) →
      EngineStep d { d with state := some .OUT_TX_CONFIRMED, outTxId := some k }
  /-- OUT_TX, src BTC: the tx is unknown to the bitcoin backend. -/
  | outTxBtcIdle (d : Doc) :
      d.state = some .OUT_TX → d.srcToken = some "BTC" →
      EngineStep d { d with state := some .IDLE }
  /-- OUT_TX, src BTC-LN: the payment is confirmed. -/
  | outTxLnConfirmed (d : Doc) (m : List (String × String)) (k v : String) :
      d.state = some .OUT_TX → d.srcToken = some "BTC-LN" → d.outTxs = some m →
      m.head? = some (k, v) →
      EngineStep d { d with state := some .OUT_TX_CONFIRMED, outTxId := some k }
  /-- OUT_TX, src BTC-LN: the payment failed or is unknown. -/
  | outTxLnIdle (d : Doc) :
      d.state = some .OUT_TX → d.srcToken = some "BTC-LN" →
      EngineStep d { d with state := some .IDLE }
  /-- OUT_TX, smart-chain src: a candidate reports success. -/
  | outTxScConfirmed (d : Doc) (m : List (String × String)) (txId : String) :
      d.state = some .OUT_TX →
      d.srcToken ≠ some "BTC" → d.srcToken ≠ some "BTC-LN" →
      d.outTxs = some m → (lookupJS m txId).isSome →
      EngineStep d { d with state := some .OUT_TX_CONFIRMED, outTxId := some txId }
  /-- OUT_TX, smart-chain src: all candidates reverted or not found:
  retry from SC_WITHDRAWAL_CONFIRMED. -/
  | outTxScRetry (d : Doc) (now : Nat) :
      d.state = some .OUT_TX →
      d.srcToken ≠ some "BTC" → d.srcToken ≠ some "BTC-LN" →
      EngineStep d { d with
        state := some .RETRYING,
        outTxs := some [],
        retryAt := some (now + 15000),
        retryState := some .SC_WITHDRAWAL_CONFIRMED }
  /-- OUT_TX_CONFIRMED: the exchange credited the deposit. -/
  | outConfirmedDeposit (d : Doc) (depId : String) :
      d.state = some .OUT_TX_CONFIRMED →
      EngineStep d { d with state := some .DEPOSIT_RECEIVED, depositId := some depId }
  /-- DEPOSIT_RECEIVED: mint a client order id and move to
  TRADE_EXECUTING (the market order is submitted afterwards). -/
  | depositTrade (d : Doc) (orderId : String) (now : Nat) :
      d.state = some .DEPOSIT_RECEIVED →
      EngineStep d { d with
        state := some .TRADE_EXECUTING,
        clientOrderId := some orderId,
        cooldown := some (now + 5000) }
  /-- TRADE_EXECUTING: order not found or canceled: retry from
  DEPOSIT_RECEIVED. -/
  | tradeRetry (d : Doc) (now : Nat) :
      d.state = some .TRADE_EXECUTING →
      EngineStep d { d with
        state := some .RETRYING,
        retryAt := some (now + 15000),
        retryState := some .DEPOSIT_RECEIVED }
  /-- TRADE_EXECUTING: the order filled; record order id, average price
  and the post-trade balance of the destination token. -/
  | tradeFilled (d : Doc) (orderId price : String) (amountIn : Nat) :
      d.state = some .TRADE_EXECUTING →
      EngineStep d { d with
        state := some .TRADE_EXECUTED,
        orderId := some orderId,
        price := some price,
        amountIn := some amountIn }
  /-- TRADE_EXECUTED: mint a client transfer id and move to
  FUNDS_TRANSFERING (the transfer is submitted afterwards). -/
  | executedTransfer (d : Doc) (transferId : String) (now : Nat) :
      d.state = some .TRADE_EXECUTED →
      EngineStep d { d with
        state := some .FUNDS_TRANSFERING,
        clientTransferId := some transferId,
        cooldown := some (now + 5000) }
  /-- FUNDS_TRANSFERING: transfer failed or unknown: retry from
  TRADE_EXECUTED. -/
  | transferRetry (d : Doc) (now : Nat) :
      d.state = some .FUNDS_TRANSFERING →
      EngineStep d { d with
        state := some .RETRYING,
        retryAt := some (now + 15000),
        retryState := some .TRADE_EXECUTED }
  /-- FUNDS_TRANSFERING: transfer succeeded. -/
  | transferDone (d : Doc) (transferId : String) :
      d.state = some .FUNDS_TRANSFERING →
      EngineStep d { d with state := some .FUNDS_TRANSFERED, transferId := some transferId }
  /-- FUNDS_TRANSFERED: record withdrawal fee, receiving address and a
  fresh withdrawal id, then move to WITHDRAWING (the withdrawal is
  submitted afterwards). -/
  | transferedWithdraw (d : Doc) (fee : Nat) (addr wid : String) (now : Nat) :
      d.state = some .FUNDS_TRANSFERED →
      EngineStep d { d with
        state := some .WITHDRAWING,
        withdrawalFee := some fee,
        receivingAddress := some addr,
        withdrawalId := some wid,
        cooldown := some (now + 5000) }
  /-- WITHDRAWING: the withdrawal submission threw an OKXError, or the
  poll found it missing or terminally failed: retry from
  FUNDS_TRANSFERED. -/
  | withdrawingRetry (d : Doc) (now : Nat) :
      d.state = some .WITHDRAWING →
      EngineStep d { d with
        state := some .RETRYING,
        retryAt := some (now + 15000),
        retryState := some .FUNDS_TRANSFERED }
  /-- WITHDRAWING: the withdrawal completed; record the venue txid. -/
  | withdrawingSent (d : Doc) (txId : String) :
      d.state = some .WITHDRAWING →
      EngineStep d { d with state := some .WITHDRAWAL_SENT, inTxId := some txId }
  /-- WITHDRAWAL_SENT: the incoming payment confirmed. -/
  | sentConfirmed (d : Doc) :
      d.state = some .WITHDRAWAL_SENT →
      EngineStep d { d with state := some .IN_TX_CONFIRMED }
  /-- WITHDRAWAL_SENT: the incoming payment was not found, canceled or
  reverted: retry from WITHDRAWING. -/
  | sentRetry (d : Doc) (now : Nat) :
      d.state = some .WITHDRAWAL_SENT →
      EngineStep d { d with
        state := some .RETRYING,
        retryAt := some (now + 15000),
        retryState := some .WITHDRAWING }
  /-- IN_TX_CONFIRMED, dst BTC or BTC-LN: the job is finished. -/
  | inConfirmedFinished (d : Doc) :
      d.state = some .IN_TX_CONFIRMED →
      (d.dstToken = some "BTC" ∨ d.dstToken = some "BTC-LN") →
      EngineStep d { d with state := some .FINISHED }
  /-- IN_TX_CONFIRMED, smart-chain dst: first onTxBroadcast candidate of
  the deposit back to the contract moves to SC_DEPOSITING. -/
  | inConfirmedScDeposit (d : Doc) (txId raw : String) (now : Nat) :
      d.state = some .IN_TX_CONFIRMED →
      d.dstToken ≠ some "BTC" → d.dstToken ≠ some "BTC-LN" →
      EngineStep d { d with
        state := some .SC_DEPOSITING,
        scDepositTxs := some [(txId, raw)],
        cooldown := some (now + 5000) }
  /-- SC_DEPOSITING: a later onTxBroadcast candidate re-enters the same
  state. -/
  | scDepositAdd (d : Doc) (m : List (String × String)) (txId raw : String) (now : Nat) :
      d.state = some .SC_DEPOSITING → d.scDepositTxs = some m →
      EngineStep d { d with
        state := some .SC_DEPOSITING,
        scDepositTxs := some (insertJS m txId raw),
        cooldown := some (now + 5000) }
  /-- SC_DEPOSITING: a candidate reports success. -/
  | scDepositSuccess (d : Doc) (m : List (String × String)) (txId : String) :
      d.state = some .SC_DEPOSITING → d.scDepositTxs = some m →
      (lookupJS m txId).isSome →
      EngineStep d { d with state := some .SC_DEPOSITED, scDepositTxId := some txId }
  /-- SC_DEPOSITING: all candidates reverted or not found: retry from
  IN_TX_CONFIRMED. -/
  | scDepositRetry (d : Doc) (now : Nat) :
      d.state = some .SC_DEPOSITING →
      EngineStep d { d with
        state := some .RETRYING,
        retryAt := some (now + 15000),
        retryState := some .IN_TX_CONFIRMED }
  /-- SC_DEPOSITED: the job is finished. -/
  | scDepositedFinished (d : Doc) :
      d.state = some .SC_DEPOSITED →
      EngineStep d { d with state := some .FINISHED }

/-- History invariant carried along an engine run: V is the set of
states visited so far.  Beyond membership of the current state it tracks
which earlier states are guaranteed visited, enough to show that every
retryState recorded on entering RETRYING is a previously visited state. -/
def EngineInv (V : RebState → Prop) (d : Doc) : Prop :=
  (∀ s, d.state = some s → V s) ∧
  (d.state = some .RETRYING →
    ∃ r, d.retryState = some r ∧ V r ∧ r ∈ retryTargets) ∧
  (d.state = some .OUT_TX → d.srcToken ≠ some "BTC" →
    d.srcToken ≠ some "BTC-LN" → V .SC_WITHDRAWAL_CONFIRMED) ∧
  (d.state = some .TRADE_EXECUTING → V .DEPOSIT_RECEIVED) ∧
  (d.state = some .FUNDS_TRANSFERING → V .TRADE_EXECUTED) ∧
  (d.state = some .WITHDRAWING → V .FUNDS_TRANSFERED) ∧
  (d.state = some .WITHDRAWAL_SENT → V .FUNDS_TRANSFERED ∧ V .WITHDRAWING) ∧
  (d.state = some .SC_DEPOSITING → V .IN_TX_CONFIRMED) ∧
  (d.state = some .RETRYING → d.retryState = some .WITHDRAWING →
    V .FUNDS_TRANSFERED)

/-- The set of engine states visited by a run f within its first i
documents. -/
def visitedUpTo (f : Nat → Doc) (i : Nat) (s : RebState) : Prop :=
  ∃ j, j ≤ i ∧ (f j).state = some s

/-- State index of a document (running documents always carry a state). -/
def docStateIndex (d : Doc) : Int :=
  match d.state with
  | some s => stateIndex s
  | none => 0

/-- A job persisted in OUT_TX for a BTC → USDC rebalance: exactly the
document written by the TRIGGERED handler just before it broadcasts the
funding transaction T. -/
def crashDoc : Doc :=
  { emptyDoc with
      state := some .OUT_TX,
      srcToken := some "BTC",
      srcTokenAddress := some "",
      dstToken := some "USDC",
      dstTokenAddress := some "0xA0b86991c6218b36c1d19d4a2e9eb0ce3606eb48",
      amountOut := some 100000,
      outTxs := some [("T", "02000000rawtx")],
      cooldown := some 5000 }

/-- A job document holding amountOut = 10 base units, as seeded by the
balance monitor before the first restart. -/
def tenSatsDoc : Doc :=
  { emptyDoc with
      state := some .TRIGGERED,
      srcToken := some "BTC",
      srcTokenAddress := some "",
      dstToken := some "USDC",
      dstTokenAddress := some "0xA0b86991c6218b36c1d19d4a2e9eb0ce3606eb48",
      amountOut := some 10 }

/-- A job in OUT_TX for a BTC-sourced rebalance whose transaction the
bitcoin backend does not know. -/
def outTxBtcDoc : Doc :=
  { emptyDoc with
      state := some .OUT_TX,
      srcToken := some "BTC",
      srcTokenAddress := some "",
      dstToken := some "USDC",
      dstTokenAddress := some "0xA0b86991c6218b36c1d19d4a2e9eb0ce3606eb48",
      amountOut := some 100000,
      outTxs := some [("T2", "02000000aa")] }

/-- A freshly seeded USDC → BTC job in TRIGGERED. -/
def seededScDoc : Doc :=
  { emptyDoc with
      state := some .TRIGGERED,
      srcToken := some "USDC",
      srcTokenAddress := some "0xA0b86991c6218b36c1d19d4a2e9eb0ce3606eb48",
      dstToken := some "BTC",
      dstTokenAddress := some "",
      amountOut := some 35000000 }

/-- The document after the first contract-withdrawal candidate of
seededScDoc is broadcast. -/
def seededScDocNext : Doc :=
  { seededScDoc with
      state := some .SC_WITHDRAWING,
      scWithdrawTxs := some [("w1", "raw1")],
      cooldown := some 5000 }

/-- A two-document run used to instantiate the monotone-progress
theorem. -/
def seedRun : Nat → Doc :=
  fun i => if i = 0 then seededScDoc else seededScDocNext

theorem natOfDigits_nil : natOfDigits [] = 0 := rfl

theorem natOfDigits_foldl (l : List Nat) : ∀ x : Nat,
    l.foldl (fun acc d => acc * 10 + d) x = x * 10 ^ l.length + natOfDigits l := by
  induction l with
  | nil => intro x; simp [natOfDigits]
  | cons a t ih =>
    intro x
    have h1 := ih (x * 10 + a)
    have h2 := ih a
    simp only [List.foldl_cons, List.length_cons]
    rw [h1]
    have : natOfDigits (a :: t) = a * 10 ^ t.length + natOfDigits t := by
      simpa [natOfDigits] using h2
    rw [this]
    ring

theorem natOfDigits_cons (a : Nat) (t : List Nat) :
    natOfDigits (a :: t) = a * 10 ^ t.length + natOfDigits t := by
  simpa [natOfDigits] using natOfDigits_foldl t a

theorem natOfDigits_append (l1 l2 : List Nat) :
    natOfDigits (l1 ++ l2) = natOfDigits l1 * 10 ^ l2.length + natOfDigits l2 := by
  unfold natOfDigits
  rw [List.foldl_append]
  exact natOfDigits_foldl l2 _

theorem natOfDigits_replicate_zero (k : Nat) :
    natOfDigits (List.replicate k 0) = 0 := by
  induction k with
  | zero => rfl
  | succ n ih => simpa [List.replicate_succ, natOfDigits_cons] using ih

theorem natOfDigits_zero_prepend (k : Nat) (l : List Nat) :
    natOfDigits (List.replicate k 0 ++ l) = natOfDigits l := by
  rw [natOfDigits_append, natOfDigits_replicate_zero]
  simp

theorem natOfDigits_lt (l : List Nat) (h : ∀ d ∈ l, d < 10) :
    natOfDigits l < 10 ^ l.length := by
  induction l with
  | nil => simp [natOfDigits]
  | cons a t ih =>
    rw [natOfDigits_cons, List.length_cons, pow_succ]
    have ha : a < 10 := h a (List.mem_cons_self a t)
    have ht : natOfDigits t < 10 ^ t.length := ih (fun d hd => h d (List.mem_cons_of_mem a hd))
    calc a * 10 ^ t.length + natOfDigits t
        < a * 10 ^ t.length + 10 ^ t.length := by omega
      _ = (a + 1) * 10 ^ t.length := by ring
      _ ≤ 10 * 10 ^ t.length := by
          exact Nat.mul_le_mul_right _ (by omega)
      _ = 10 ^ t.length * 10 := by ring

theorem natOfDigits_eq_ofDigits (l : List Nat) :
    natOfDigits l = Nat.ofDigits 10 l.reverse := by
  induction l with
  | nil => rfl
  | cons a t ih =>
    rw [natOfDigits_cons, List.reverse_cons, Nat.ofDigits_append, ih]
    simp [Nat.ofDigits_singleton]
    ring

theorem natOfDigits_eq_zero {l : List Nat} (h : natOfDigits l = 0) :
    l = List.replicate l.length 0 := by
  have h2 : Nat.ofDigits 10 l.reverse = 0 := by
    rw [← natOfDigits_eq_ofDigits]; exact h
  have h3 : ∀ d ∈ l.reverse, d = 0 :=
    Nat.digits_zero_of_eq_zero (by norm_num) h2
  have h4 : ∀ d ∈ l, d = 0 := fun d hd => h3 d (List.mem_reverse.mpr hd)
  exact List.eq_replicate_of_mem h4

theorem digitsOfAux_eq (fuel : Nat) : ∀ n : Nat, 0 < n → n ≤ fuel →
    digitsOfAux fuel n = (Nat.digits 10 n).reverse := by
  induction fuel with
  | zero => intro n h0 hf; omega
  | succ f ih =>
    intro n h0 hf
    have hn : n ≠ 0 := Nat.pos_iff_ne_zero.mp h0
    rw [digitsOfAux, if_neg hn]
    rw [Nat.digits_def' (by norm_num : (1:Nat) < 10) h0, List.reverse_cons]
    by_cases hq : n / 10 = 0
    · rw [hq]
      simp [digitsOfAux]
      cases f <;> simp [digitsOfAux]
    · have hq0 : 0 < n / 10 := Nat.pos_iff_ne_zero.mpr hq
      have hqf : n / 10 ≤ f := by
        have : n / 10 < n := Nat.div_lt_self h0 (by norm_num)
        omega
      rw [ih (n / 10) hq0 hqf]

theorem digitsOf_eq_digits {n : Nat} (h : n ≠ 0) :
    digitsOf n = (Nat.digits 10 n).reverse := by
  unfold digitsOf
  rw [if_neg h]
  exact digitsOfAux_eq n n (Nat.pos_iff_ne_zero.mpr h) le_rfl

theorem natOfDigits_digitsOf (n : Nat) : natOfDigits (digitsOf n) = n := by
  by_cases h : n = 0
  · subst h; rfl
  · rw [digitsOf_eq_digits h, natOfDigits_eq_ofDigits, List.reverse_reverse,
      Nat.ofDigits_digits]

theorem digitsOf_lt (n : Nat) : ∀ d ∈ digitsOf n, d < 10 := by
  by_cases h : n = 0
  · subst h; intro d hd; simp [digitsOf] at hd; omega
  · rw [digitsOf_eq_digits h]
    intro d hd
    exact Nat.digits_lt_base (by norm_num) (List.mem_reverse.mp hd)

theorem digitsOf_natOfDigits (l : List Nat) (hd : ∀ d ∈ l, d < 10)
    (hne : l ≠ []) (hh : l.head? ≠ some 0) :
    digitsOf (natOfDigits l) = l := by
  have hrev : ∀ x ∈ l.reverse, x < 10 := fun x hx => hd x (List.mem_reverse.mp hx)
  have hlast : ∀ h2 : l.reverse ≠ [], l.reverse.getLast h2 ≠ 0 := by
    intro h2
    obtain ⟨a, t, rfl⟩ := List.exists_cons_of_ne_nil hne
    have ha : a ≠ 0 := by
      intro h3; subst h3; exact hh rfl
    simpa [List.getLast_append] using ha
  have hd2 : Nat.digits 10 (Nat.ofDigits 10 l.reverse) = l.reverse :=
    Nat.digits_ofDigits 10 (by norm_num) l.reverse hrev hlast
  have hne2 : natOfDigits l ≠ 0 := by
    intro h0
    have hofd : Nat.ofDigits 10 l.reverse = 0 := by
      rw [← natOfDigits_eq_ofDigits]; exact h0
    rw [hofd] at hd2
    simp only [Nat.digits_zero] at hd2
    exact hne (by simpa using congrArg List.reverse hd2.symm)
  rw [digitsOf_eq_digits hne2, natOfDigits_eq_ofDigits, hd2, List.reverse_reverse]

theorem digitsOf_length_le {n k : Nat} (h1 : 1 ≤ k) (h : n < 10 ^ k) :
    (digitsOf n).length ≤ k := by
  by_cases h0 : n = 0
  · subst h0; simpa [digitsOf] using h1
  · rw [digitsOf_eq_digits h0, List.length_reverse]
    have hle : 10 ^ (Nat.digits 10 n).length ≤ 10 * n :=
      Nat.base_pow_length_digits_le 10 n (by norm_num) h0
    by_contra hgt
    push_neg at hgt
    have : 10 ^ (k + 1) ≤ 10 ^ (Nat.digits 10 n).length :=
      Nat.pow_le_pow_right (by norm_num) hgt
    have : 10 ^ (k + 1) ≤ 10 * n := le_trans this hle
    rw [pow_succ] at this
    omega

theorem natOfDigits_inj : ∀ l1 l2 : List Nat, (∀ d ∈ l1, d < 10) →
    (∀ d ∈ l2, d < 10) → l1.length = l2.length →
    natOfDigits l1 = natOfDigits l2 → l1 = l2 := by
  intro l1
  induction l1 with
  | nil =>
    intro l2 _ _ hlen _
    exact (List.eq_nil_of_length_eq_zero hlen.symm).symm
  | cons a t ih =>
    intro l2 h1 h2 hlen hv
    cases l2 with
    | nil => simp at hlen
    | cons b s =>
      have hts : t.length = s.length := by simpa using hlen
      rw [natOfDigits_cons, natOfDigits_cons, hts] at hv
      have hlt1 : natOfDigits t < 10 ^ s.length := by
        rw [← hts]
        exact natOfDigits_lt t (fun d hd => h1 d (List.mem_cons_of_mem a hd))
      have hlt2 : natOfDigits s < 10 ^ s.length :=
        natOfDigits_lt s (fun d hd => h2 d (List.mem_cons_of_mem b hd))
      have hab : a = b := by
        by_contra hne
        rcases Nat.lt_or_ge a b with hl | hg
        · have : (a + 1) * 10 ^ s.length ≤ b * 10 ^ s.length :=
            Nat.mul_le_mul_right _ (by omega)
          nlinarith
        · have hg2 : b < a := by omega
          have : (b + 1) * 10 ^ s.length ≤ a * 10 ^ s.length :=
            Nat.mul_le_mul_right _ (by omega)
          nlinarith
      subst hab
      have hts2 : natOfDigits t = natOfDigits s := by omega
      rw [ih s (fun d hd => h1 d (List.mem_cons_of_mem a hd))
        (fun d hd => h2 d (List.mem_cons_of_mem a hd)) hts hts2]

theorem fromDecimal_toDecimal_pos (x : Nat) (d : Int) (hd : 0 < d) :
    fromDecimal (toDecimal x d) d = x := by
  have hneg : ¬ d ≤ 0 := not_le.mpr hd
  set L := digitsOf x with hL
  set pad := List.replicate (d.toNat + 1 - L.length) 0 ++ L with hpad
  have h1 : toDecimal x d =
      ⟨pad.take (pad.length - d.toNat), some (pad.drop (pad.length - d.toNat))⟩ := by
    unfold toDecimal
    rw [if_neg hneg]
  have hplen : d.toNat + 1 ≤ pad.length := by
    rw [hpad]
    simp only [List.length_append, List.length_replicate]
    omega
  have hdroplen : (pad.drop (pad.length - d.toNat)).length = d.toNat := by
    simp only [List.length_drop]
    omega
  rw [h1]
  unfold fromDecimal
  simp only
  rw [if_neg (by omega : ¬ d < 0), hdroplen, if_neg (by omega : ¬ d.toNat < d.toNat)]
  have hzero : d.toNat - d.toNat = 0 := by omega
  rw [hzero, List.replicate_zero, List.append_nil]
  have hsplit : pad.take (pad.length - d.toNat) ++ pad.drop (pad.length - d.toNat) = pad :=
    List.take_append_drop _ _
  have hval : natOfDigits (pad.take (pad.length - d.toNat) ++
      pad.drop (pad.length - d.toNat)) = x := by
    rw [hsplit, hpad, natOfDigits_zero_prepend, hL, natOfDigits_digitsOf]
  by_cases hb : pad.take (pad.length - d.toNat) = [0]
  · rw [if_pos hb, List.nil_append]
    rw [hb] at hval
    have : natOfDigits ([0] ++ pad.drop (pad.length - d.toNat)) =
        natOfDigits (pad.drop (pad.length - d.toNat)) := by
      rw [natOfDigits_append]
      simp [natOfDigits_cons, natOfDigits_nil]
    omega
  · rw [if_neg hb]
    exact hval

theorem toDecimal_fromDecimal_pos (s : DecStr) (d : Int) (hc : canonicalDec s)
    (hd : 0 < d) (hfl : (s.frac.getD []).length ≤ d.toNat) :
    toDecimal (fromDecimal s d) d = normalizeDec s d := by
  obtain ⟨hw10, hf10, hwne, hwcanon⟩ := hc
  have hneg : ¬ d ≤ 0 := not_le.mpr hd
  set w := s.whole with hw
  set f := s.frac.getD [] with hf
  set fpad := f ++ List.replicate (d.toNat - f.length) 0 with hfpad
  have hfpadlen : fpad.length = d.toNat := by
    rw [hfpad]
    simp only [List.length_append, List.length_replicate]
    omega
  have hfpadlt : ∀ a ∈ fpad, a < 10 := by
    intro a ha
    rcases List.mem_append.mp ha with h1 | h2
    · exact hf10 a h1
    · have := List.eq_of_mem_replicate h2
      omega
  have hzp : natOfDigits ([0] ++ fpad) = natOfDigits fpad := by
    have h01 : ([0] : List Nat) = List.replicate 1 0 := rfl
    rw [h01, natOfDigits_zero_prepend]
  have hnorm : normalizeDec s d = ⟨w, some fpad⟩ := rfl
  have hv : fromDecimal s d = natOfDigits (w ++ fpad) := by
    unfold fromDecimal
    cases hsf : s.frac with
    | none =>
      simp only
      rw [if_neg (by omega : ¬ d < 0)]
      have hfnil : f = [] := by rw [hf, hsf]; rfl
      rw [hfpad, hfnil]
      simp only [List.nil_append, List.length_nil, Nat.sub_zero]
    | some after =>
      simp only
      have hfa : f = after := by rw [hf, hsf]; rfl
      rw [if_neg (by omega : ¬ d < 0)]
      rw [if_neg (by rw [← hfa]; omega : ¬ d.toNat < after.length)]
      by_cases hw0 : w = [0]
      · rw [if_pos (hw.symm.trans hw0), List.nil_append]
        rw [hw0, hzp, hfpad, hfa]
      · rw [if_neg (fun hc0 => hw0 (hw.trans hc0))]
        rw [hfpad, hfa, ← List.append_assoc, ← hw]
  rw [hv, hnorm]
  set v := natOfDigits (w ++ fpad) with hvv
  by_cases hw0 : w = [0]
  · have hveq : v = natOfDigits fpad := by rw [hvv, hw0, hzp]
    have hvlt : v < 10 ^ d.toNat := by
      rw [hveq, ← hfpadlen]
      exact natOfDigits_lt fpad hfpadlt
    have hdsl : (digitsOf v).length ≤ d.toNat := digitsOf_length_le (by omega) hvlt
    set pad := List.replicate (d.toNat + 1 - (digitsOf v).length) 0 ++ digitsOf v with hpad
    have h1 : toDecimal v d =
        ⟨pad.take (pad.length - d.toNat), some (pad.drop (pad.length - d.toNat))⟩ := by
      unfold toDecimal
      rw [if_neg hneg]
    have hpadlen : pad.length = d.toNat + 1 := by
      rw [hpad]
      simp only [List.length_append, List.length_replicate]
      omega
    have htd : pad.length - d.toNat = 1 := by omega
    have hk : 1 ≤ d.toNat + 1 - (digitsOf v).length := by omega
    have htake : pad.take 1 = [0] := by
      rw [hpad, List.take_append_of_le_length (by simpa using hk), List.take_replicate]
      have hmin : min 1 (d.toNat + 1 - (digitsOf v).length) = 1 := by omega
      rw [hmin, List.replicate_one]
    have hdrop : pad.drop 1 = List.replicate (d.toNat - (digitsOf v).length) 0 ++ digitsOf v := by
      rw [hpad, List.drop_append_of_le_length (by simpa using hk), List.drop_replicate]
      have heq : d.toNat + 1 - (digitsOf v).length - 1 = d.toNat - (digitsOf v).length := by
        omega
      rw [heq]
    have hdropfpad : pad.drop 1 = fpad := by
      rw [hdrop]
      apply natOfDigits_inj
      · intro a ha
        rcases List.mem_append.mp ha with h1 | h2
        · have := List.eq_of_mem_replicate h1
          omega
        · exact digitsOf_lt v a h2
      · exact hfpadlt
      · simp only [List.length_append, List.length_replicate, hfpadlen]
        omega
      · rw [natOfDigits_zero_prepend, natOfDigits_digitsOf, hveq]
    rw [h1, htd, htake, hdropfpad, hw0]
  · have hwh : w.head? ≠ some 0 := hwcanon.resolve_left hw0
    have hall : ∀ a ∈ w ++ fpad, a < 10 := by
      intro a ha
      rcases List.mem_append.mp ha with h1 | h2
      · exact hw10 a h1
      · exact hfpadlt a h2
    have hne2 : w ++ fpad ≠ [] := by
      intro h0
      exact hwne (List.append_eq_nil.mp h0).1
    have hh : (w ++ fpad).head? ≠ some 0 := by
      obtain ⟨a, t, hwat⟩ := List.exists_cons_of_ne_nil hwne
      rw [hwat] at hwh ⊢
      simpa using hwh
    have hds : digitsOf v = w ++ fpad := by
      rw [hvv]
      exact digitsOf_natOfDigits _ hall hne2 hh
    have hwlen : 1 ≤ w.length := List.length_pos.mpr hwne
    have hdsl : (digitsOf v).length = w.length + d.toNat := by
      rw [hds]
      simp [hfpadlen]
    set pad := List.replicate (d.toNat + 1 - (digitsOf v).length) 0 ++ digitsOf v with hpad
    have h1 : toDecimal v d =
        ⟨pad.take (pad.length - d.toNat), some (pad.drop (pad.length - d.toNat))⟩ := by
      unfold toDecimal
      rw [if_neg hneg]
    have hzero : d.toNat + 1 - (digitsOf v).length = 0 := by omega
    have hpad2 : pad = w ++ fpad := by
      rw [hpad, hzero, List.replicate_zero, List.nil_append, hds]
    have hplen : pad.length = w.length + d.toNat := by
      rw [hpad2]
      simp [hfpadlen]
    have hidx : pad.length - d.toNat = w.length := by omega
    rw [h1, hidx, hpad2, List.take_left, List.drop_left]

theorem binance_decimals_pos {c : String} {d : Int}
    (h : (c, d) ∈ Binance.currencyDecimals) : 0 < d := by
  simp [Binance.currencyDecimals] at h
  rcases h with ⟨_, h⟩ | ⟨_, h⟩ | ⟨_, h⟩ | ⟨_, h⟩ | ⟨_, h⟩ | ⟨_, h⟩ <;> omega

/-- Claim C5: for every token with decimal count d in the
currencyDecimals table and every non-negative integer x,
fromDecimal(toDecimal(x, d), d) = x; and for every canonical decimal
string s with at most d fractional digits, toDecimal(fromDecimal(s, d), d)
is the normalization of s, i.e. s with its fractional part right-padded
with zeros to exactly d digits. -/
theorem c5_decimal_roundtrip :
    (∀ c d, (c, d) ∈ Binance.currencyDecimals → ∀ x : Nat,
      fromDecimal (toDecimal x d) d = x) ∧
    (∀ c d, (c, d) ∈ Binance.currencyDecimals → ∀ s : DecStr, canonicalDec s →
      (s.frac.getD []).length ≤ d.toNat →
      toDecimal (fromDecimal s d) d = normalizeDec s d) := by
  constructor
  · intro c d hm x
    exact fromDecimal_toDecimal_pos x d (binance_decimals_pos hm)
  · intro c d hm s hcan hfl
    exact toDecimal_fromDecimal_pos s d hcan (binance_decimals_pos hm) hfl

theorem c5_decimal_roundtrip_witness :
    fromDecimal (toDecimal 1 8) 8 = 1 ∧
    toDecimal (fromDecimal ⟨[1], none⟩ 8) 8 = normalizeDec ⟨[1], none⟩ 8 :=
  ⟨c5_decimal_roundtrip.1 "BTC" 8 (by decide) 1,
   c5_decimal_roundtrip.2 "BTC" 8 (by decide) ⟨[1], none⟩
     (by simp only [canonicalDec]; decide) (by decide)⟩

/-- Claim C9: for every venue response, chain argument and amount,
OKX.getWithdrawalFee on BTC-LN returns exactly 1000 + amount/1000
satoshis; the result does not depend on the api argument, so no exchange
call is consulted for the Lightning withdrawal fee. -/
theorem c9_ln_withdrawal_fee (api : OKX.OKXApi) (chain : String) (amount : Nat) :
    OKX.getWithdrawalFee api "BTC-LN" chain amount =
      Except.ok (1000 + amount / 1000) := rfl

/-- Claim C10: for non-Lightning currencies Binance.withdraw submits a
single amount field equal to amount + withdrawalFee in decimal, OKX
submits the given amount and the fee as two separate decimal fields, and
for BTC-LN Binance.withdraw ignores the amount argument, deriving the
submitted amount from the BOLT-11 invoice passed as the address. -/
theorem c10_withdraw_amounts :
    (∀ (decodeSats : String → Nat) (currency chain address wid : String)
        (fee a : Nat) (dec : Int), currency ≠ "BTC-LN" →
        Binance.currencyDecimals.lookup currency = some dec →
        Binance.withdraw decodeSats currency chain address wid fee (some a) =
          Except.ok ⟨currency, wid, (if currency = "BTC" then "BTC" else chain),
            address, toDecimal (a + fee) dec⟩) ∧
    (∀ (currency chain address wid : String) (fee a : Nat) (dec : Int),
        currency ≠ "BTC-LN" →
        OKX.currencyDecimals.lookup currency = some dec →
        OKX.withdraw currency chain address wid fee (some a) =
          Except.ok (OKX.OKXWithdrawReq.onchain currency (toDecimal a dec) address
            (currency ++ "-" ++ (if currency = "BTC" then "Bitcoin" else chain))
            wid (toDecimal fee dec))) ∧
    (∀ (decodeSats : String → Nat) (chain address wid : String) (fee : Nat)
        (amount : Option Nat),
        Binance.withdraw decodeSats "BTC-LN" chain address wid fee amount =
          Except.ok ⟨"BTC", wid, "LIGHTNING", address,
            toDecimal (decodeSats address + fee) 8⟩) := by
  refine ⟨?_, ?_, ?_⟩
  · intro decodeSats currency chain address wid fee a dec hne hlk
    unfold Binance.withdraw
    rw [if_neg hne, hlk]
  · intro currency chain address wid fee a dec hne hlk
    unfold OKX.withdraw
    rw [if_neg hne, hlk]
  · intro decodeSats chain address wid fee amount
    rfl

theorem c10_withdraw_amounts_witness :
    Binance.withdraw (fun _ => 0) "USDC" "Polygon" "0xdest" "wid1" 5 (some 7) =
      Except.ok ⟨"USDC", "wid1", "Polygon", "0xdest", toDecimal 12 6⟩ ∧
    OKX.withdraw "USDC" "Polygon" "0xdest" "wid2" 5 (some 7) =
      Except.ok (OKX.OKXWithdrawReq.onchain "USDC" (toDecimal 7 18) "0xdest"
        "USDC-Polygon" "wid2" (toDecimal 5 18)) := by
  constructor
  · have h := c10_withdraw_amounts.1 (fun _ => 0) "USDC" "Polygon" "0xdest" "wid1"
      5 7 6 (by decide) (by decide)
    simpa using h
  · have h := c10_withdraw_amounts.2.1 "USDC" "Polygon" "0xdest" "wid2"
      5 7 18 (by decide) (by decide)
    simpa using h

/-- Claim C6, counterexample: BTC and BTC-LN are distinct supported
currencies and one of them is BTC, yet both orientations of
getTradingPair leave the buy flag undefined on both venues, so the two
buy flags are not boolean complements as the claim requires. -/
theorem c6_counterexample :
    "BTC" ∈ supportedCurrencies ∧ "BTC-LN" ∈ supportedCurrencies ∧
    "BTC" ≠ "BTC-LN" ∧
    (Binance.getTradingPair "BTC" "BTC-LN").buy = none ∧
    (Binance.getTradingPair "BTC-LN" "BTC").buy = none ∧
    (OKX.getTradingPair "BTC" "BTC-LN").buy = none ∧
    (OKX.getTradingPair "BTC-LN" "BTC").buy = none ∧
    ¬ (∃ b : Bool, (Binance.getTradingPair "BTC" "BTC-LN").buy = some b ∧
        (Binance.getTradingPair "BTC-LN" "BTC").buy = some (!b)) := by
  refine ⟨by decide, by decide, by decide, rfl, rfl, rfl, rfl, ?_⟩
  rintro ⟨b, hb, _⟩
  simp [Binance.getTradingPair] at hb

/-- Claim C6 as amended: for every pair of distinct supported currencies
of which exactly one is BTC or BTC-LN, both orientations of
getTradingPair return the same defined trading-pair string and
complementary buy flags, on the Binance and the OKX adapter alike. -/
theorem c6_pair_involution (src dst : String)
    (hsrc : src ∈ supportedCurrencies) (hdst : dst ∈ supportedCurrencies)
    (hne : src ≠ dst) (hxor : isBtcLike src ≠ isBtcLike dst) :
    (∃ p b, Binance.getTradingPair src dst = ⟨some p, some b⟩ ∧
      Binance.getTradingPair dst src = ⟨some p, some (!b)⟩) ∧
    (∃ p b, OKX.getTradingPair src dst = ⟨some p, some b⟩ ∧
      OKX.getTradingPair dst src = ⟨some p, some (!b)⟩) := by
  fin_cases hsrc <;> fin_cases hdst <;>
    first
      | exact absurd rfl hne
      | exact absurd hxor (by decide)
      | exact ⟨⟨_, _, rfl, rfl⟩, ⟨_, _, rfl, rfl⟩⟩

theorem c6_pair_involution_witness :
    (∃ p b, Binance.getTradingPair "BTC" "USDC" = ⟨some p, some b⟩ ∧
      Binance.getTradingPair "USDC" "BTC" = ⟨some p, some (!b)⟩) ∧
    (∃ p b, OKX.getTradingPair "BTC" "USDC" = ⟨some p, some b⟩ ∧
      OKX.getTradingPair "USDC" "BTC" = ⟨some p, some (!b)⟩) :=
  c6_pair_involution "BTC" "USDC" (by decide) (by decide) (by decide) (by decide)

/-- Claim C2 (code bug): serializeState writes amountOut with
toString(10) while loadState re-reads it with new BN(value, 16), so a
job with amountOut = 10 round-trips to 16 on the first restart; the
persistence round trip does not preserve the big-integer fields. -/
theorem c2_bigint_roundtrip_mismatch :
    tenSatsDoc.amountOut = some 10 ∧
    (serializeState tenSatsDoc).amountOut = some [1, 0] ∧
    (loadState (serializeState tenSatsDoc)).amountOut = some 16 ∧
    loadState (serializeState tenSatsDoc) ≠ tenSatsDoc := by
  refine ⟨rfl, rfl, rfl, ?_⟩
  intro h
  have h2 := congrArg Doc.amountOut h
  simp only [loadState, serializeState] at h2
  exact absurd h2 (by decide)

/-- Claim C7: when the job slot is idle and the absolute PPM imbalance
exceeds the threshold, the monitor computes the notional as
sum * |diff| * rebalanceAmountPPM / 10^12 with truncating division;
a negative diff seeds a BTC → USDC job for the notional, otherwise the
notional is converted to USDC base units via the price oracle, the run
aborts without seeding when that exceeds the usable USDC balance, and
otherwise a USDC → BTC job is seeded for the converted amount. -/
theorem c7_monitor_trigger (job : Option Doc)
    (bU bB usable threshold amountPPM : Nat) (fromBtcAmount : Nat → Nat)
    (hidle : job = none ∨
      ∃ dj, job = some dj ∧ (dj.state = none ∨ dj.state = some RebState.IDLE))
    (hthr : threshold <
      (((bU * 1000000 / (bU + bB) : Nat) : Int) -
       ((bB * 1000000 / (bU + bB) : Nat) : Int)).natAbs) :
    monitorTick job bU bB usable fromBtcAmount threshold amountPPM =
      (let diffPPM : Int := ((bU * 1000000 / (bU + bB) : Nat) : Int) -
         ((bB * 1000000 / (bU + bB) : Nat) : Int)
       let notional := (bU + bB) * diffPPM.natAbs * amountPPM / 10 ^ 12
       if diffPPM < 0 then some ⟨"BTC", "USDC", notional⟩
       else if usable < fromBtcAmount notional then none
       else some ⟨"USDC", "BTC", fromBtcAmount notional⟩) := by
  have hdiv : ∀ n : Nat, n / 1000000 / 1000000 = n / 10 ^ 12 := by
    intro n
    rw [Nat.div_div_eq_div_mul]
    norm_num
  rcases hidle with h | ⟨dj, hj, hs⟩
  · subst h
    simp only [monitorTick, Bool.false_eq_true, if_false]
    rw [if_pos hthr, hdiv]
  · subst hj
    rcases hs with h2 | h2 <;>
      · simp only [monitorTick, h2, bne_self_eq_false, Bool.false_eq_true, if_false]
        rw [if_pos hthr, hdiv]

theorem c7_monitor_trigger_witness :
    monitorTick none 3 1 100 (fun x => 10 * x) 100000 1000000 =
      some ⟨"USDC", "BTC", 20⟩ := by
  have h := c7_monitor_trigger none 3 1 100 100000 1000000 (fun x => 10 * x)
    (Or.inl rfl) (by decide)
  rw [h]
  decide

/-- Claim C4: setState(S) either succeeds with every field of
REQUIRED_FIELDS[S] non-null, the in-memory state set to S and the
serialized new document on disk, or it throws before mutating the state
field, leaving the in-memory document and the on-disk document
unchanged. -/
theorem c4_setState_atomic (d : Doc) (disk : Option SerDoc) (s : RebState) :
    ((∀ f ∈ REQUIRED_FIELDS s, fieldPresent d f = true) →
      setState d s = Except.ok { d with state := some s } ∧
      docAfterSetState d s = { d with state := some s } ∧
      diskAfterSetState d disk s = some (serializeState { d with state := some s })) ∧
    ((¬ ∀ f ∈ REQUIRED_FIELDS s, fieldPresent d f = true) →
      (∃ msg, setState d s = Except.error msg) ∧
      docAfterSetState d s = d ∧
      diskAfterSetState d disk s = disk) := by
  constructor
  · intro hall
    have hfind : (REQUIRED_FIELDS s).find? (fun f => !fieldPresent d f) = none := by
      rw [List.find?_eq_none]
      intro x hx
      simp [hall x hx]
    refine ⟨?_, ?_, ?_⟩ <;>
      simp [setState, docAfterSetState, diskAfterSetState, hfind]
  · intro hnall
    push_neg at hnall
    obtain ⟨f0, hf0mem, hf0⟩ := hnall
    have hex : ∃ x, (REQUIRED_FIELDS s).find? (fun f => !fieldPresent d f) = some x := by
      rw [← Option.isSome_iff_exists, List.find?_isSome]
      exact ⟨f0, hf0mem, by simp [hf0]⟩
    obtain ⟨x, hx⟩ := hex
    refine ⟨⟨"Invalid state transition, missing field", ?_⟩, ?_, ?_⟩ <;>
      simp [setState, docAfterSetState, diskAfterSetState, hx]

theorem c4_setState_atomic_witness :
    setState tenSatsDoc RebState.TRIGGERED =
      Except.ok { tenSatsDoc with state := some RebState.TRIGGERED } ∧
    diskAfterSetState tenSatsDoc none RebState.TRIGGERED =
      some (serializeState { tenSatsDoc with state := some RebState.TRIGGERED }) ∧
    (∃ msg, setState emptyDoc RebState.RETRYING = Except.error msg) ∧
    diskAfterSetState emptyDoc none RebState.RETRYING = none := by
  have h1 := (c4_setState_atomic tenSatsDoc none RebState.TRIGGERED).1 (by decide)
  have h2 := (c4_setState_atomic emptyDoc none RebState.RETRYING).2 (by decide)
  exact ⟨h1.1, h1.2.2, h2.1, h2.2.2⟩


theorem insertJS_lookup_self (m : List (String × String)) (k v : String) :
    lookupJS (insertJS m k v) k = some v := by
  unfold insertJS
  by_cases h : (lookupJS m k).isSome
  · rw [if_pos h]
    induction m with
    | nil => simp [lookupJS] at h
    | cons p t ih =>
      by_cases hp : p.1 = k
      · simp [lookupJS, hp]
      · simp only [lookupJS, if_neg hp] at h
        simp only [List.map_cons, if_neg hp, lookupJS, if_neg hp]
        exact ih h
  · rw [if_neg h]
    induction m with
    | nil => simp [lookupJS]
    | cons p t ih =>
      by_cases hp : p.1 = k
      · simp [lookupJS, hp] at h
      · simp only [lookupJS, if_neg hp] at h
        simp only [List.cons_append, lookupJS, if_neg hp]
        exact ih h

theorem insertJS_lookup_other (m : List (String × String)) (k v k2 : String)
    (hne : k ≠ k2) : lookupJS (insertJS m k v) k2 = lookupJS m k2 := by
  unfold insertJS
  by_cases h : (lookupJS m k).isSome
  · rw [if_pos h]
    clear h
    induction m with
    | nil => rfl
    | cons p t ih =>
      by_cases hp : p.1 = k
      · simp only [List.map_cons, if_pos hp, lookupJS, if_neg hne, if_neg (hp ▸ hne)]
        exact ih
      · simp only [List.map_cons, if_neg hp, lookupJS]
        by_cases hp2 : p.1 = k2
        · rw [if_pos hp2, if_pos hp2]
        · rw [if_neg hp2, if_neg hp2]
          exact ih
  · rw [if_neg h]
    clear h
    induction m with
    | nil => simp [lookupJS, hne]
    | cons p t ih =>
      simp only [List.cons_append, lookupJS]
      by_cases hp2 : p.1 = k2
      · rw [if_pos hp2, if_pos hp2]
      · rw [if_neg hp2, if_neg hp2]
        exact ih

/-- Claim C8: when the job is in SC_WITHDRAWING, OUT_TX or SC_DEPOSITING
and oldTxId is a key of the corresponding candidate map, the
onBeforeTxReplace callback inserts newTxId → newTx into that map keeping
every other entry (in particular the old one, as replacement txids
differ), sets cooldown to now + 5 s and persists the document (flag
true); in every other case the document is returned unchanged and
nothing is saved. -/
theorem c8_tx_replace (d : Doc) (now : Nat) (oldTx oldTxId newTx newTxId : String) :
    (∀ m v, d.state = some RebState.SC_WITHDRAWING → d.scWithdrawTxs = some m →
      lookupJS m oldTxId = some v →
      onBeforeTxReplace d now oldTx oldTxId newTx newTxId =
        ({ d with
            scWithdrawTxs := some (insertJS m newTxId newTx),
            cooldown := some (now + 5000) }, true) ∧
      lookupJS (insertJS m newTxId newTx) newTxId = some newTx ∧
      (∀ k2, newTxId ≠ k2 →
        lookupJS (insertJS m newTxId newTx) k2 = lookupJS m k2)) ∧
    (∀ m v, d.state = some RebState.OUT_TX → d.outTxs = some m →
      lookupJS m oldTxId = some v →
      onBeforeTxReplace d now oldTx oldTxId newTx newTxId =
        ({ d with
            outTxs := some (insertJS m newTxId newTx),
            cooldown := some (now + 5000) }, true) ∧
      lookupJS (insertJS m newTxId newTx) newTxId = some newTx ∧
      (∀ k2, newTxId ≠ k2 →
        lookupJS (insertJS m newTxId newTx) k2 = lookupJS m k2)) ∧
    (∀ m v, d.state = some RebState.SC_DEPOSITING → d.scDepositTxs = some m →
      lookupJS m oldTxId = some v →
      onBeforeTxReplace d now oldTx oldTxId newTx newTxId =
        ({ d with
            scDepositTxs := some (insertJS m newTxId newTx),
            cooldown := some (now + 5000) }, true) ∧
      lookupJS (insertJS m newTxId newTx) newTxId = some newTx ∧
      (∀ k2, newTxId ≠ k2 →
        lookupJS (insertJS m newTxId newTx) k2 = lookupJS m k2)) ∧
    (¬ (d.state = some RebState.SC_WITHDRAWING ∧
        ∃ m, d.scWithdrawTxs = some m ∧ (lookupJS m oldTxId).isSome) →
     ¬ (d.state = some RebState.OUT_TX ∧
        ∃ m, d.outTxs = some m ∧ (lookupJS m oldTxId).isSome) →
     ¬ (d.state = some RebState.SC_DEPOSITING ∧
        ∃ m, d.scDepositTxs = some m ∧ (lookupJS m oldTxId).isSome) →
      onBeforeTxReplace d now oldTx oldTxId newTx newTxId = (d, false)) := by
  refine ⟨?_, ?_, ?_, ?_⟩
  · intro m v hs hm hv
    refine ⟨?_, insertJS_lookup_self m newTxId newTx,
      fun k2 hk => insertJS_lookup_other m newTxId newTx k2 hk⟩
    unfold onBeforeTxReplace
    rw [if_pos hs]
    simp only [hm, hv, Option.isSome_some, if_true]
  · intro m v hs hm hv
    have hs1 : ¬ d.state = some RebState.SC_WITHDRAWING := by
      rw [hs]; simp
    refine ⟨?_, insertJS_lookup_self m newTxId newTx,
      fun k2 hk => insertJS_lookup_other m newTxId newTx k2 hk⟩
    unfold onBeforeTxReplace
    rw [if_neg hs1, if_pos hs]
    simp only [hm, hv, Option.isSome_some, if_true]
  · intro m v hs hm hv
    have hs1 : ¬ d.state = some RebState.SC_WITHDRAWING := by
      rw [hs]; simp
    have hs2 : ¬ d.state = some RebState.OUT_TX := by
      rw [hs]; simp
    refine ⟨?_, insertJS_lookup_self m newTxId newTx,
      fun k2 hk => insertJS_lookup_other m newTxId newTx k2 hk⟩
    unfold onBeforeTxReplace
    rw [if_neg hs1, if_neg hs2, if_pos hs]
    simp only [hm, hv, Option.isSome_some, if_true]
  · intro h1 h2 h3
    unfold onBeforeTxReplace
    by_cases hs1 : d.state = some RebState.SC_WITHDRAWING
    · rw [if_pos hs1]
      rcases hmo : d.scWithdrawTxs with _ | m
      · rfl
      · simp only
        rw [if_neg (fun hv => h1 ⟨hs1, m, hmo, hv⟩)]
    · rw [if_neg hs1]
      by_cases hs2 : d.state = some RebState.OUT_TX
      · rw [if_pos hs2]
        rcases hmo : d.outTxs with _ | m
        · rfl
        · simp only
          rw [if_neg (fun hv => h2 ⟨hs2, m, hmo, hv⟩)]
      · rw [if_neg hs2]
        by_cases hs3 : d.state = some RebState.SC_DEPOSITING
        · rw [if_pos hs3]
          rcases hmo : d.scDepositTxs with _ | m
          · rfl
          · simp only
            rw [if_neg (fun hv => h3 ⟨hs3, m, hmo, hv⟩)]
        · rw [if_neg hs3]

theorem c8_tx_replace_witness :
    onBeforeTxReplace outTxBtcDoc 0 "raw" "T2" "02000000bb" "T3" =
      ({ outTxBtcDoc with
          outTxs := some (insertJS [("T2", "02000000aa")] "T3" "02000000bb"),
          cooldown := some 5000 }, true) ∧
    lookupJS (insertJS [("T2", "02000000aa")] "T3" "02000000bb") "T2" =
      some "02000000aa" ∧
    onBeforeTxReplace emptyDoc 0 "raw" "T2" "02000000bb" "T3" = (emptyDoc, false) := by
  have h := (c8_tx_replace outTxBtcDoc 0 "raw" "T2" "02000000bb" "T3").2.1
    [("T2", "02000000aa")] "02000000aa" rfl rfl (by decide)
  have hmiss := (c8_tx_replace emptyDoc 0 "raw" "T2" "02000000bb" "T3").2.2.2
    (fun hc => by simp [emptyDoc] at hc)
    (fun hc => by simp [emptyDoc] at hc)
    (fun hc => by simp [emptyDoc] at hc)
  refine ⟨h.1, ?_, hmiss⟩
  have h2 := h.2.2 "T2" (by decide)
  rw [h2]
  decide

theorem engineInv_step (V V2 : RebState → Prop) (hVV : ∀ s, V s → V2 s)
    (d d2 : Doc) (h : EngineStep d d2)
    (hd2 : ∀ s, d2.state = some s → V2 s)
    (hInv : EngineInv V d) : EngineInv V2 d2 := by
  obtain ⟨h1, h2, h3, h4, h5, h6, h7, h8, h9⟩ := hInv
  cases h with
  | retryExit r hs hr =>
    obtain ⟨r2, hr2, hVr2, hmem⟩ := h2 hs
    rw [hr] at hr2
    have hre : r = r2 := Option.some.inj hr2
    subst hre
    refine ⟨hd2, ?_, ?_, ?_, ?_, ?_, ?_, ?_, ?_⟩
    · intro hx
      exfalso
      simp at hx
      subst hx
      exact absurd hmem (by decide)
    · intro hx hb hbl
      exfalso
      simp at hx
      subst hx
      exact absurd hmem (by decide)
    · intro hx
      exfalso
      simp at hx
      subst hx
      exact absurd hmem (by decide)
    · intro hx
      exfalso
      simp at hx
      subst hx
      exact absurd hmem (by decide)
    · intro hx
      simp at hx
      subst hx
      exact hVV _ (h9 hs hr)
    · intro hx
      exfalso
      simp at hx
      subst hx
      exact absurd hmem (by decide)
    · intro hx
      exfalso
      simp at hx
      subst hx
      exact absurd hmem (by decide)
    · intro hx hx2
      exfalso
      simp at hx
      subst hx
      exact absurd hmem (by decide)
  | triggeredLnOut ph inv now hs hsrc =>
    refine ⟨hd2, ?_, ?_, ?_, ?_, ?_, ?_, ?_, ?_⟩
    · intro hx; exfalso; simp at hx
    · intro hx hb hbl
      exact absurd (by simpa using hsrc) hbl
    · intro hx; exfalso; simp at hx
    · intro hx; exfalso; simp at hx
    · intro hx; exfalso; simp at hx
    · intro hx; exfalso; simp at hx
    · intro hx; exfalso; simp at hx
    · intro hx hx2; exfalso; simp at hx
  | triggeredBtcOut txId raw now hs hsrc =>
    refine ⟨hd2, ?_, ?_, ?_, ?_, ?_, ?_, ?_, ?_⟩
    · intro hx; exfalso; simp at hx
    · intro hx hb hbl
      exact absurd (by simpa using hsrc) hb
    · intro hx; exfalso; simp at hx
    · intro hx; exfalso; simp at hx
    · intro hx; exfalso; simp at hx
    · intro hx; exfalso; simp at hx
    · intro hx; exfalso; simp at hx
    · intro hx hx2; exfalso; simp at hx
  | triggeredBtcFail hs hsrc =>
    refine ⟨hd2, ?_, ?_, ?_, ?_, ?_, ?_, ?_, ?_⟩ <;> intro hx <;> exfalso <;> simp at hx
  | triggeredScWithdraw txId raw now hs hb hbl =>
    refine ⟨hd2, ?_, ?_, ?_, ?_, ?_, ?_, ?_, ?_⟩ <;> intro hx <;> exfalso <;> simp at hx
  | scWithdrawAdd m txId raw now hs hm =>
    refine ⟨hd2, ?_, ?_, ?_, ?_, ?_, ?_, ?_, ?_⟩ <;> intro hx <;> exfalso <;> simp at hx
  | scWithdrawSuccess m txId hs hm hlk =>
    refine ⟨hd2, ?_, ?_, ?_, ?_, ?_, ?_, ?_, ?_⟩ <;> intro hx <;> exfalso <;> simp at hx
  | scWithdrawAllFail hs =>
    refine ⟨hd2, ?_, ?_, ?_, ?_, ?_, ?_, ?_, ?_⟩ <;> intro hx <;> exfalso <;> simp at hx
  | scwcOut txId raw now hs =>
    refine ⟨hd2, ?_, ?_, ?_, ?_, ?_, ?_, ?_, ?_⟩
    · intro hx; exfalso; simp at hx
    · intro hx hb hbl
      exact hVV _ (h1 _ hs)
    · intro hx; exfalso; simp at hx
    · intro hx; exfalso; simp at hx
    · intro hx; exfalso; simp at hx
    · intro hx; exfalso; simp at hx
    · intro hx; exfalso; simp at hx
    · intro hx hx2; exfalso; simp at hx
  | outTxAdd m txId raw now hs hm =>
    refine ⟨hd2, ?_, ?_, ?_, ?_, ?_, ?_, ?_, ?_⟩
    · intro hx; exfalso; simp at hx
    · intro hx hb hbl
      exact hVV _ (h3 hs (by simpa using hb) (by simpa using hbl))
    · intro hx; exfalso; simp at hx
    · intro hx; exfalso; simp at hx
    · intro hx; exfalso; simp at hx
    · intro hx; exfalso; simp at hx
    · intro hx; exfalso; simp at hx
    · intro hx hx2; exfalso; simp at hx
  | outTxBtcConfirmed m k v hs hsrc hm hhd =>
    refine ⟨hd2, ?_, ?_, ?_, ?_, ?_, ?_, ?_, ?_⟩ <;> intro hx <;> exfalso <;> simp at hx
  | outTxBtcIdle hs hsrc =>
    refine ⟨hd2, ?_, ?_, ?_, ?_, ?_, ?_, ?_, ?_⟩ <;> intro hx <;> exfalso <;> simp at hx
  | outTxLnConfirmed m k v hs hsrc hm hhd =>
    refine ⟨hd2, ?_, ?_, ?_, ?_, ?_, ?_, ?_, ?_⟩ <;> intro hx <;> exfalso <;> simp at hx
  | outTxLnIdle hs hsrc =>
    refine ⟨hd2, ?_, ?_, ?_, ?_, ?_, ?_, ?_, ?_⟩ <;> intro hx <;> exfalso <;> simp at hx
  | outTxScConfirmed m txId hs hb hbl hm hlk =>
    refine ⟨hd2, ?_, ?_, ?_, ?_, ?_, ?_, ?_, ?_⟩ <;> intro hx <;> exfalso <;> simp at hx
  | outTxScRetry now hs hb hbl =>
    refine ⟨hd2, ?_, ?_, ?_, ?_, ?_, ?_, ?_, ?_⟩
    · intro hx
      exact ⟨.SC_WITHDRAWAL_CONFIRMED, rfl, hVV _ (h3 hs hb hbl), by decide⟩
    · intro hx hb2 hbl2; exfalso; simp at hx
    · intro hx; exfalso; simp at hx
    · intro hx; exfalso; simp at hx
    · intro hx; exfalso; simp at hx
    · intro hx; exfalso; simp at hx
    · intro hx; exfalso; simp at hx
    · intro hx hx2; exfalso; simp at hx2
  | outConfirmedDeposit depId hs =>
    refine ⟨hd2, ?_, ?_, ?_, ?_, ?_, ?_, ?_, ?_⟩ <;> intro hx <;> exfalso <;> simp at hx
  | depositTrade orderId now hs =>
    refine ⟨hd2, ?_, ?_, ?_, ?_, ?_, ?_, ?_, ?_⟩
    · intro hx; exfalso; simp at hx
    · intro hx hb hbl; exfalso; simp at hx
    · intro hx
      exact hVV _ (h1 _ hs)
    · intro hx; exfalso; simp at hx
    · intro hx; exfalso; simp at hx
    · intro hx; exfalso; simp at hx
    · intro hx; exfalso; simp at hx
    · intro hx hx2; exfalso; simp at hx
  | tradeRetry now hs =>
    refine ⟨hd2, ?_, ?_, ?_, ?_, ?_, ?_, ?_, ?_⟩
    · intro hx
      exact ⟨.DEPOSIT_RECEIVED, rfl, hVV _ (h4 hs), by decide⟩
    · intro hx hb hbl; exfalso; simp at hx
    · intro hx; exfalso; simp at hx
    · intro hx; exfalso; simp at hx
    · intro hx; exfalso; simp at hx
    · intro hx; exfalso; simp at hx
    · intro hx; exfalso; simp at hx
    · intro hx hx2; exfalso; simp at hx2
  | tradeFilled orderId price amountIn hs =>
    refine ⟨hd2, ?_, ?_, ?_, ?_, ?_, ?_, ?_, ?_⟩ <;> intro hx <;> exfalso <;> simp at hx
  | executedTransfer transferId now hs =>
    refine ⟨hd2, ?_, ?_, ?_, ?_, ?_, ?_, ?_, ?_⟩
    · intro hx; exfalso; simp at hx
    · intro hx hb hbl; exfalso; simp at hx
    · intro hx; exfalso; simp at hx
    · intro hx
      exact hVV _ (h1 _ hs)
    · intro hx; exfalso; simp at hx
    · intro hx; exfalso; simp at hx
    · intro hx; exfalso; simp at hx
    · intro hx hx2; exfalso; simp at hx
  | transferRetry now hs =>
    refine ⟨hd2, ?_, ?_, ?_, ?_, ?_, ?_, ?_, ?_⟩
    · intro hx
      exact ⟨.TRADE_EXECUTED, rfl, hVV _ (h5 hs), by decide⟩
    · intro hx hb hbl; exfalso; simp at hx
    · intro hx; exfalso; simp at hx
    · intro hx; exfalso; simp at hx
    · intro hx; exfalso; simp at hx
    · intro hx; exfalso; simp at hx
    · intro hx; exfalso; simp at hx
    · intro hx hx2; exfalso; simp at hx2
  | transferDone transferId hs =>
    refine ⟨hd2, ?_, ?_, ?_, ?_, ?_, ?_, ?_, ?_⟩ <;> intro hx <;> exfalso <;> simp at hx
  | transferedWithdraw fee addr wid now hs =>
    refine ⟨hd2, ?_, ?_, ?_, ?_, ?_, ?_, ?_, ?_⟩
    · intro hx; exfalso; simp at hx
    · intro hx hb hbl; exfalso; simp at hx
    · intro hx; exfalso; simp at hx
    · intro hx; exfalso; simp at hx
    · intro hx
      exact hVV _ (h1 _ hs)
    · intro hx; exfalso; simp at hx
    · intro hx; exfalso; simp at hx
    · intro hx hx2; exfalso; simp at hx
  | withdrawingRetry now hs =>
    refine ⟨hd2, ?_, ?_, ?_, ?_, ?_, ?_, ?_, ?_⟩
    · intro hx
      exact ⟨.FUNDS_TRANSFERED, rfl, hVV _ (h6 hs), by decide⟩
    · intro hx hb hbl; exfalso; simp at hx
    · intro hx; exfalso; simp at hx
    · intro hx; exfalso; simp at hx
    · intro hx; exfalso; simp at hx
    · intro hx; exfalso; simp at hx
    · intro hx; exfalso; simp at hx
    · intro hx hx2; exfalso; simp at hx2
  | withdrawingSent txId hs =>
    refine ⟨hd2, ?_, ?_, ?_, ?_, ?_, ?_, ?_, ?_⟩
    · intro hx; exfalso; simp at hx
    · intro hx hb hbl; exfalso; simp at hx
    · intro hx; exfalso; simp at hx
    · intro hx; exfalso; simp at hx
    · intro hx; exfalso; simp at hx
    · intro hx
      exact ⟨hVV _ (h6 hs), hVV _ (h1 _ hs)⟩
    · intro hx; exfalso; simp at hx
    · intro hx hx2; exfalso; simp at hx
  | sentConfirmed hs =>
    refine ⟨hd2, ?_, ?_, ?_, ?_, ?_, ?_, ?_, ?_⟩ <;> intro hx <;> exfalso <;> simp at hx
  | sentRetry now hs =>
    refine ⟨hd2, ?_, ?_, ?_, ?_, ?_, ?_, ?_, ?_⟩
    · intro hx
      exact ⟨.WITHDRAWING, rfl, hVV _ (h7 hs).2, by decide⟩
    · intro hx hb hbl; exfalso; simp at hx
    · intro hx; exfalso; simp at hx
    · intro hx; exfalso; simp at hx
    · intro hx; exfalso; simp at hx
    · intro hx; exfalso; simp at hx
    · intro hx; exfalso; simp at hx
    · intro hx hx2
      exact hVV _ (h7 hs).1
  | inConfirmedFinished hs hdst =>
    refine ⟨hd2, ?_, ?_, ?_, ?_, ?_, ?_, ?_, ?_⟩ <;> intro hx <;> exfalso <;> simp at hx
  | inConfirmedScDeposit txId raw now hs hb hbl =>
    refine ⟨hd2, ?_, ?_, ?_, ?_, ?_, ?_, ?_, ?_⟩
    · intro hx; exfalso; simp at hx
    · intro hx hb2 hbl2; exfalso; simp at hx
    · intro hx; exfalso; simp at hx
    · intro hx; exfalso; simp at hx
    · intro hx; exfalso; simp at hx
    · intro hx; exfalso; simp at hx
    · intro hx
      exact hVV _ (h1 _ hs)
    · intro hx hx2; exfalso; simp at hx
  | scDepositAdd m txId raw now hs hm =>
    refine ⟨hd2, ?_, ?_, ?_, ?_, ?_, ?_, ?_, ?_⟩
    · intro hx; exfalso; simp at hx
    · intro hx hb hbl; exfalso; simp at hx
    · intro hx; exfalso; simp at hx
    · intro hx; exfalso; simp at hx
    · intro hx; exfalso; simp at hx
    · intro hx; exfalso; simp at hx
    · intro hx
      exact hVV _ (h8 hs)
    · intro hx hx2; exfalso; simp at hx
  | scDepositSuccess m txId hs hm hlk =>
    refine ⟨hd2, ?_, ?_, ?_, ?_, ?_, ?_, ?_, ?_⟩ <;> intro hx <;> exfalso <;> simp at hx
  | scDepositRetry now hs =>
    refine ⟨hd2, ?_, ?_, ?_, ?_, ?_, ?_, ?_, ?_⟩
    · intro hx
      exact ⟨.IN_TX_CONFIRMED, rfl, hVV _ (h8 hs), by decide⟩
    · intro hx hb hbl; exfalso; simp at hx
    · intro hx; exfalso; simp at hx
    · intro hx; exfalso; simp at hx
    · intro hx; exfalso; simp at hx
    · intro hx; exfalso; simp at hx
    · intro hx; exfalso; simp at hx
    · intro hx hx2; exfalso; simp at hx2
  | scDepositedFinished hs =>
    refine ⟨hd2, ?_, ?_, ?_, ?_, ?_, ?_, ?_, ?_⟩ <;> intro hx <;> exfalso <;> simp at hx

theorem engineInv_trace (f : Nat → Doc) (n : Nat)
    (hinit : (f 0).state = some RebState.TRIGGERED)
    (hstep : ∀ i, i < n → EngineStep (f i) (f (i + 1))) :
    ∀ i, i ≤ n → EngineInv (visitedUpTo f i) (f i) := by
  intro i
  induction i with
  | zero =>
    intro _
    refine ⟨?_, ?_, ?_, ?_, ?_, ?_, ?_, ?_, ?_⟩
    · intro s hs
      exact ⟨0, le_rfl, hs⟩
    · intro hx
      rw [hinit] at hx
      exact absurd hx (by decide)
    · intro hx
      rw [hinit] at hx
      exact absurd hx (by decide)
    · intro hx
      rw [hinit] at hx
      exact absurd hx (by decide)
    · intro hx
      rw [hinit] at hx
      exact absurd hx (by decide)
    · intro hx
      rw [hinit] at hx
      exact absurd hx (by decide)
    · intro hx
      rw [hinit] at hx
      exact absurd hx (by decide)
    · intro hx
      rw [hinit] at hx
      exact absurd hx (by decide)
    · intro hx
      rw [hinit] at hx
      exact absurd hx (by decide)
  | succ k ih =>
    intro hk
    have hInvk := ih (by omega)
    have hstepk := hstep k (by omega)
    refine engineInv_step (visitedUpTo f k) (visitedUpTo f (k + 1)) ?_
      (f k) (f (k + 1)) hstepk ?_ hInvk
    · rintro s ⟨j, hj, hjs⟩
      exact ⟨j, by omega, hjs⟩
    · intro s hs
      exact ⟨k + 1, le_rfl, hs⟩

theorem retrying_step_target (d d2 : Doc) (h : EngineStep d d2)
    (hs : d.state = some RebState.RETRYING) :
    ∃ r, d.retryState = some r ∧ d2.state = some r := by
  cases h with
  | retryExit r hs2 hr => exact ⟨r, hr, by simp⟩
  | triggeredLnOut ph inv now hs2 hsrc => rw [hs] at hs2; exact absurd hs2 (by decide)
  | triggeredBtcOut txId raw now hs2 hsrc => rw [hs] at hs2; exact absurd hs2 (by decide)
  | triggeredBtcFail hs2 hsrc => rw [hs] at hs2; exact absurd hs2 (by decide)
  | triggeredScWithdraw txId raw now hs2 hb hbl => rw [hs] at hs2; exact absurd hs2 (by decide)
  | scWithdrawAdd m txId raw now hs2 hm => rw [hs] at hs2; exact absurd hs2 (by decide)
  | scWithdrawSuccess m txId hs2 hm hlk => rw [hs] at hs2; exact absurd hs2 (by decide)
  | scWithdrawAllFail hs2 => rw [hs] at hs2; exact absurd hs2 (by decide)
  | scwcOut txId raw now hs2 => rw [hs] at hs2; exact absurd hs2 (by decide)
  | outTxAdd m txId raw now hs2 hm => rw [hs] at hs2; exact absurd hs2 (by decide)
  | outTxBtcConfirmed m k v hs2 hsrc hm hhd => rw [hs] at hs2; exact absurd hs2 (by decide)
  | outTxBtcIdle hs2 hsrc => rw [hs] at hs2; exact absurd hs2 (by decide)
  | outTxLnConfirmed m k v hs2 hsrc hm hhd => rw [hs] at hs2; exact absurd hs2 (by decide)
  | outTxLnIdle hs2 hsrc => rw [hs] at hs2; exact absurd hs2 (by decide)
  | outTxScConfirmed m txId hs2 hb hbl hm hlk => rw [hs] at hs2; exact absurd hs2 (by decide)
  | outTxScRetry now hs2 hb hbl => rw [hs] at hs2; exact absurd hs2 (by decide)
  | outConfirmedDeposit depId hs2 => rw [hs] at hs2; exact absurd hs2 (by decide)
  | depositTrade orderId now hs2 => rw [hs] at hs2; exact absurd hs2 (by decide)
  | tradeRetry now hs2 => rw [hs] at hs2; exact absurd hs2 (by decide)
  | tradeFilled orderId price amountIn hs2 => rw [hs] at hs2; exact absurd hs2 (by decide)
  | executedTransfer transferId now hs2 => rw [hs] at hs2; exact absurd hs2 (by decide)
  | transferRetry now hs2 => rw [hs] at hs2; exact absurd hs2 (by decide)
  | transferDone transferId hs2 => rw [hs] at hs2; exact absurd hs2 (by decide)
  | transferedWithdraw fee addr wid now hs2 => rw [hs] at hs2; exact absurd hs2 (by decide)
  | withdrawingRetry now hs2 => rw [hs] at hs2; exact absurd hs2 (by decide)
  | withdrawingSent txId hs2 => rw [hs] at hs2; exact absurd hs2 (by decide)
  | sentConfirmed hs2 => rw [hs] at hs2; exact absurd hs2 (by decide)
  | sentRetry now hs2 => rw [hs] at hs2; exact absurd hs2 (by decide)
  | inConfirmedFinished hs2 hdst => rw [hs] at hs2; exact absurd hs2 (by decide)
  | inConfirmedScDeposit txId raw now hs2 hb hbl => rw [hs] at hs2; exact absurd hs2 (by decide)
  | scDepositAdd m txId raw now hs2 hm => rw [hs] at hs2; exact absurd hs2 (by decide)
  | scDepositSuccess m txId hs2 hm hlk => rw [hs] at hs2; exact absurd hs2 (by decide)
  | scDepositRetry now hs2 => rw [hs] at hs2; exact absurd hs2 (by decide)
  | scDepositedFinished hs2 => rw [hs] at hs2; exact absurd hs2 (by decide)

theorem step_index_decrease (d d2 : Doc) (h : EngineStep d d2)
    (hlt : docStateIndex d2 < docStateIndex d) :
    d.state = some RebState.RETRYING ∨ d2.state = some RebState.RETRYING ∨
      d2.state = some RebState.IDLE := by
  cases h with
  | retryExit r hs hr => exact Or.inl hs
  | triggeredLnOut ph inv now hs hsrc => simp [docStateIndex, stateIndex, hs] at hlt
  | triggeredBtcOut txId raw now hs hsrc => simp [docStateIndex, stateIndex, hs] at hlt
  | triggeredBtcFail hs hsrc => right; right; simp
  | triggeredScWithdraw txId raw now hs hb hbl => simp [docStateIndex, stateIndex, hs] at hlt
  | scWithdrawAdd m txId raw now hs hm => simp [docStateIndex, stateIndex, hs] at hlt
  | scWithdrawSuccess m txId hs hm hlk => simp [docStateIndex, stateIndex, hs] at hlt
  | scWithdrawAllFail hs => right; right; simp
  | scwcOut txId raw now hs => simp [docStateIndex, stateIndex, hs] at hlt
  | outTxAdd m txId raw now hs hm => simp [docStateIndex, stateIndex, hs] at hlt
  | outTxBtcConfirmed m k v hs hsrc hm hhd => simp [docStateIndex, stateIndex, hs] at hlt
  | outTxBtcIdle hs hsrc => right; right; simp
  | outTxLnConfirmed m k v hs hsrc hm hhd => simp [docStateIndex, stateIndex, hs] at hlt
  | outTxLnIdle hs hsrc => right; right; simp
  | outTxScConfirmed m txId hs hb hbl hm hlk => simp [docStateIndex, stateIndex, hs] at hlt
  | outTxScRetry now hs hb hbl => right; left; simp
  | outConfirmedDeposit depId hs => simp [docStateIndex, stateIndex, hs] at hlt
  | depositTrade orderId now hs => simp [docStateIndex, stateIndex, hs] at hlt
  | tradeRetry now hs => right; left; simp
  | tradeFilled orderId price amountIn hs => simp [docStateIndex, stateIndex, hs] at hlt
  | executedTransfer transferId now hs => simp [docStateIndex, stateIndex, hs] at hlt
  | transferRetry now hs => right; left; simp
  | transferDone transferId hs => simp [docStateIndex, stateIndex, hs] at hlt
  | transferedWithdraw fee addr wid now hs => simp [docStateIndex, stateIndex, hs] at hlt
  | withdrawingRetry now hs => right; left; simp
  | withdrawingSent txId hs => simp [docStateIndex, stateIndex, hs] at hlt
  | sentConfirmed hs => simp [docStateIndex, stateIndex, hs] at hlt
  | sentRetry now hs => right; left; simp
  | inConfirmedFinished hs hdst => simp [docStateIndex, stateIndex, hs] at hlt
  | inConfirmedScDeposit txId raw now hs hb hbl => simp [docStateIndex, stateIndex, hs] at hlt
  | scDepositAdd m txId raw now hs hm => simp [docStateIndex, stateIndex, hs] at hlt
  | scDepositSuccess m txId hs hm hlk => simp [docStateIndex, stateIndex, hs] at hlt
  | scDepositRetry now hs => right; left; simp
  | scDepositedFinished hs => simp [docStateIndex, stateIndex, hs] at hlt

/-- Claim C3, counterexample: a BTC-sourced job in OUT_TX whose
transaction the bitcoin backend does not know takes the engine
transition OUT_TX → IDLE, dropping the numeric state index from 4 to 0
although neither endpoint is RETRYING — the index decreases without the
RETRYING wormhole. -/
theorem c3_counterexample :
    EngineStep outTxBtcDoc { outTxBtcDoc with state := some RebState.IDLE } ∧
    outTxBtcDoc.state = some RebState.OUT_TX ∧
    docStateIndex { outTxBtcDoc with state := some RebState.IDLE } <
      docStateIndex outTxBtcDoc ∧
    outTxBtcDoc.state ≠ some RebState.RETRYING ∧
    ({ outTxBtcDoc with state := some RebState.IDLE } : Doc).state ≠
      some RebState.RETRYING := by
  refine ⟨EngineStep.outTxBtcIdle outTxBtcDoc rfl rfl, rfl, ?_, by decide, by decide⟩
  simp [docStateIndex, stateIndex, outTxBtcDoc]

/-- Claim C3 as amended: along every engine run started from a freshly
seeded TRIGGERED job, the numeric state index never decreases except on
transitions into or out of RETRYING and on the dead-end failure
transitions into IDLE; and every transition out of RETRYING re-enters a
previously visited state. -/
theorem c3_monotone_amended (f : Nat → Doc) (n : Nat)
    (hinit : (f 0).state = some RebState.TRIGGERED)
    (hstep : ∀ i, i < n → EngineStep (f i) (f (i + 1)))
    (i : Nat) (hi : i < n) :
    ((f i).state = some RebState.RETRYING →
      ∃ j, j ≤ i ∧ (f j).state = (f (i + 1)).state) ∧
    (docStateIndex (f (i + 1)) < docStateIndex (f i) →
      (f i).state = some RebState.RETRYING ∨
      (f (i + 1)).state = some RebState.RETRYING ∨
      (f (i + 1)).state = some RebState.IDLE) := by
  have hInv := engineInv_trace f n hinit hstep i (le_of_lt hi)
  have hstepi := hstep i hi
  constructor
  · intro hr
    obtain ⟨r, hrs, hs2⟩ := retrying_step_target (f i) (f (i + 1)) hstepi hr
    obtain ⟨r2, hrs2, hV, _⟩ := hInv.2.1 hr
    have hre : r2 = r := Option.some.inj (hrs2.symm.trans hrs)
    subst hre
    obtain ⟨j, hj, hjs⟩ := hV
    exact ⟨j, hj, by rw [hjs, hs2]⟩
  · intro hlt
    exact step_index_decrease (f i) (f (i + 1)) hstepi hlt

theorem c3_monotone_amended_witness :
    ((seedRun 0).state = some RebState.RETRYING →
      ∃ j, j ≤ 0 ∧ (seedRun j).state = (seedRun 1).state) ∧
    (docStateIndex (seedRun 1) < docStateIndex (seedRun 0) →
      (seedRun 0).state = some RebState.RETRYING ∨
      (seedRun 1).state = some RebState.RETRYING ∨
      (seedRun 1).state = some RebState.IDLE) := by
  refine c3_monotone_amended seedRun 1 rfl ?_ 0 (by omega)
  intro i hi
  interval_cases i
  show EngineStep seededScDoc seededScDocNext
  exact EngineStep.triggeredScWithdraw seededScDoc "w1" "raw1" 0 rfl (by decide) (by decide)

/-- Claim C1 (code bug): for a BTC-sourced rebalance the TRIGGERED
handler persists OUT_TX before broadcasting.  If the process crashes in
that window, the restarted engine polls a transaction the network never
saw: the OUT_TX handler answers not-found and dead-ends the job in IDLE,
from which no engine transition exists — while the crash-free run of the
very same persisted document converges to FINISHED.  The two terminal
states differ, so restarting from the persisted document does not
converge to the crash-free terminal state. -/
theorem c1_crash_divergence :
    EngineStep crashDoc { crashDoc with state := some RebState.IDLE } ∧
    (∀ e, ¬ EngineStep { crashDoc with state := some RebState.IDLE } e) ∧
    (∃ q, Relation.ReflTransGen EngineStep crashDoc q ∧
      q.state = some RebState.FINISHED) ∧
    some RebState.IDLE ≠ some RebState.FINISHED := by
  refine ⟨EngineStep.outTxBtcIdle crashDoc rfl rfl, ?_, ?_, by decide⟩
  · intro e h
    cases h <;> simp_all
  · have t1 := Relation.ReflTransGen.tail (Relation.ReflTransGen.refl)
      (EngineStep.outTxBtcConfirmed crashDoc [("T", "02000000rawtx")] "T"
        "02000000rawtx" rfl rfl rfl rfl)
    have t2 := t1.tail (EngineStep.outConfirmedDeposit _ "D1" rfl)
    have t3 := t2.tail (EngineStep.depositTrade _ "ord1" 0 rfl)
    have t4 := t3.tail (EngineStep.tradeFilled _ "o1" "24.5" 20000000 rfl)
    have t5 := t4.tail (EngineStep.executedTransfer _ "t1" 0 rfl)
    have t6 := t5.tail (EngineStep.transferDone _ "tr1" rfl)
    have t7 := t6.tail (EngineStep.transferedWithdraw _ 1000 "0xcontract" "w1" 0 rfl)
    have t8 := t7.tail (EngineStep.withdrawingSent _ "Tin" rfl)
    have t9 := t8.tail (EngineStep.sentConfirmed _ rfl)
    have t10 := t9.tail
      (EngineStep.inConfirmedScDeposit _ "dT" "draw" 0 rfl (by decide) (by decide))
    have t11 := t10.tail
      (EngineStep.scDepositSuccess _ [("dT", "draw")] "dT" rfl rfl (by decide))
    have t12 := t11.tail (EngineStep.scDepositedFinished _ rfl)
    exact ⟨_, t12, rfl⟩
